import Mathlib

/-!
# OpenFlow 1.5 action codec (package `openflow15`)

A shallow embedding of `action.go`, `action_ext.go` and `match_ext.go`: the action header
codec, the standard action codecs, the dispatcher `DecodeAction`, the vendor actions
`NXActionEncap` and `NXActionStack` and the two OXM field values.

Conventions of the embedding.

* A Go `[]byte` is a `List Nat` whose elements are bytes (`< 256`); the slice's
  capacity is its length, as it is for a slice literal, for `make([]byte, n)` and
  for the result of `append` onto a full slice.
* `uint8`, `uint16` and `uint32` values are natural numbers; arithmetic that can
  wrap carries an explicit `% 2 ^ w`.
* A Go call either returns or panics at run time: `Outcome`.  An `error` result is
  an `Option Error` (`none` is Go's `nil`).
* A method with a pointer receiver that mutates it returns the receiver's new
  state next to its Go results.
* Calls to `klog` only log and are left out.
-/

namespace openflow15

/-! ## The Go run time -/

/-- The two run-time panics the codec can raise. -/
inductive Panic where
  /-- Go: `index out of range [i] with length n`. -/
  | indexOutOfRange
  /-- Go: `slice bounds out of range`. -/
  | sliceBoundsOutOfRange
  /-- Go: `invalid memory address or nil pointer dereference`. -/
  | nilPointerDereference
  deriving DecidableEq, Repr

/-- The result of running a Go call: it returns a value, or it panics. -/
inductive Outcome (α : Type) where
  | ret (a : α)
  | panicked (p : Panic)
  deriving DecidableEq, Repr

/-- Sequencing of Go statements: a panic aborts everything that follows. -/
def Outcome.bind {α β : Type} (x : Outcome α) (f : α → Outcome β) : Outcome β :=
  match x with
  | .ret a => f a
  | .panicked p => .panicked p

instance : Monad Outcome where
  pure := Outcome.ret
  bind := Outcome.bind

/-- The slice expression `data[lo:]`. -/
def sliceFrom (data : List Nat) (lo : Nat) : Outcome (List Nat) :=
  if lo ≤ data.length then .ret (data.drop lo) else .panicked .sliceBoundsOutOfRange

/-- The slice expression `data[:hi]`. -/
def sliceTo (data : List Nat) (hi : Nat) : Outcome (List Nat) :=
  if hi ≤ data.length then .ret (data.take hi) else .panicked .sliceBoundsOutOfRange

/-- The slice expression `data[lo:hi]`. -/
def subslice (data : List Nat) (lo hi : Nat) : Outcome (List Nat) :=
  if lo ≤ hi ∧ hi ≤ data.length then .ret ((data.take hi).drop lo)
  else .panicked .sliceBoundsOutOfRange

/-- The index expression `data[i]` read. -/
def index (data : List Nat) (i : Nat) : Outcome Nat :=
  match data.get? i with
  | some b => .ret b
  | none => .panicked .indexOutOfRange

/-- The assignment `data[i] = v`. -/
def setIndex (data : List Nat) (i : Nat) (v : Nat) : Outcome (List Nat) :=
  if i < data.length then .ret (data.set i v) else .panicked .indexOutOfRange

/-- Go's `make([]byte, n)`. -/
def make (n : Nat) : List Nat := List.replicate n 0

/-- Go's `copy(dst, src)`: overwrites the first `min (len dst) (len src)` elements of
`dst`. -/
def copy (dst src : List Nat) : List Nat :=
  src.take dst.length ++ dst.drop src.length

/-- Go's `copy(data[n:], src)`, seen from `data`. -/
def copyAt (data : List Nat) (n : Nat) (src : List Nat) : Outcome (List Nat) := do
  let tail ← sliceFrom data n
  pure (data.take n ++ copy tail src)

/-- Go's `binary.BigEndian.Uint16(b)`: `uint16(b[1]) | uint16(b[0])<<8`, after the
bounds check `_ = b[1]`. -/
def Uint16 (b : List Nat) : Outcome Nat :=
  match b with
  | b0 :: b1 :: _ => .ret (b0 * 2 ^ 8 + b1)
  | _ => .panicked .indexOutOfRange

/-- Go's `binary.BigEndian.Uint32(b)`, after the bounds check `_ = b[3]`. -/
def Uint32 (b : List Nat) : Outcome Nat :=
  match b with
  | b0 :: b1 :: b2 :: b3 :: _ => .ret (b0 * 2 ^ 24 + b1 * 2 ^ 16 + b2 * 2 ^ 8 + b3)
  | _ => .panicked .indexOutOfRange

/-- Go's `binary.BigEndian.PutUint16(b, v)`: `b[0] = byte(v >> 8); b[1] = byte(v)`,
after the bounds check `_ = b[1]`. -/
def PutUint16 (b : List Nat) (v : Nat) : Outcome (List Nat) :=
  match b with
  | _ :: _ :: rest => .ret (v / 2 ^ 8 % 256 :: v % 256 :: rest)
  | _ => .panicked .indexOutOfRange

/-- Go's `binary.BigEndian.PutUint32(b, v)`, after the bounds check `_ = b[3]`. -/
def PutUint32 (b : List Nat) (v : Nat) : Outcome (List Nat) :=
  match b with
  | _ :: _ :: _ :: _ :: rest =>
    .ret (v / 2 ^ 24 % 256 :: v / 2 ^ 16 % 256 :: v / 2 ^ 8 % 256 :: v % 256 :: rest)
  | _ => .panicked .indexOutOfRange

/-- Go's `binary.BigEndian.PutUint16(data[n:], v)`, seen from `data`. -/
def PutUint16At (data : List Nat) (n : Nat) (v : Nat) : Outcome (List Nat) := do
  let tail ← sliceFrom data n
  let tail ← PutUint16 tail v
  pure (data.take n ++ tail)

/-- Go's `binary.BigEndian.PutUint32(data[n:], v)`, seen from `data`. -/
def PutUint32At (data : List Nat) (n : Nat) (v : Nat) : Outcome (List Nat) := do
  let tail ← sliceFrom data n
  let tail ← PutUint32 tail v
  pure (data.take n ++ tail)

/-- Every element of the buffer is a byte. -/
def isBytes (data : List Nat) : Prop := ∀ b ∈ data, b < 256

instance (data : List Nat) : Decidable (isBytes data) := by
  unfold isBytes; infer_instance

/-! ## Errors -/

/-- The `error` values the codec returns, one constructor per message. -/
inductive Error where
  /-- Go: "The []byte the wrong size to unmarshal an ActionHeader message." -/
  | headerWrongSize
  /-- Go: "The []byte the wrong size to unmarshal an ActionOutput message."
  (returned by `ActionOutput.UnmarshalBinary` and by `ActionGroup.UnmarshalBinary`). -/
  | outputWrongSize
  /-- Go: "The []byte the wrong size to unmarshal an ActionEnqueue message." -/
  | enqueueWrongSize
  /-- Go: "the []byte is too short to decode OpenFlow experimenter message". -/
  | experimenterTooShort
  /-- Go: `fmt.Errorf("Failed to decode NxAction: err=%v, %v", err, data)`. -/
  | failedToDecodeNxAction (err : Error) (data : List Nat)
  /-- Go: `fmt.Errorf("Failed to decode NxAction: no supported action, %v", data)`. -/
  | noSupportedNxAction (data : List Nat)
  /-- Go: `fmt.Errorf("DecodeAction unknown type: %v", t)`. -/
  | unknownType (t : Nat)
  /-- An error made by code of the package that lies outside `action.go`. -/
  | external (code : Nat)
  /-- Go: `fmt.Errorf("NXActionEncap.UnmarshalBinary is not implemted")`. -/
  | encapNotImplemented
  /-- Go: "the []byte is too short to unmarshal a full NXActionStack message". -/
  | stackTooShort
  /-- Go: `fmt.Errorf("Failed to unmarshal NXActionStack's SrcField, err=%s, data=%v", err,
  data[n:n+4])`. -/
  | stackSrcField (err : Error) (data : List Nat)
  /-- Go: "the []byte is too short to unmarshal a full Mpls TtlField message". -/
  | mplsTtlFieldTooShort
  /-- The spec's `TruncatedInput`, returned by the codecs modelled from the spec. -/
  | truncatedInput
  /-- The spec's `UnknownFieldType`, returned by the codecs modelled from the spec. -/
  | unknownFieldType
  deriving DecidableEq, Repr

/-! ## ofp_action_type 1.5 -/

def ActionType_Output : Nat := 0
def ActionType_CopyTtlOut : Nat := 11
def ActionType_CopyTtlIn : Nat := 12
def ActionType_SetMplsTtl : Nat := 15
def ActionType_DecMplsTtl : Nat := 16
def ActionType_PushVlan : Nat := 17
def ActionType_PopVlan : Nat := 18
def ActionType_PushMpls : Nat := 19
def ActionType_PopMpls : Nat := 20
def ActionType_SetQueue : Nat := 21
def ActionType_Group : Nat := 22
def ActionType_SetNwTtl : Nat := 23
def ActionType_DecNwTtl : Nat := 24
def ActionType_SetField : Nat := 25
def ActionType_PushPbb : Nat := 26
def ActionType_PopPbb : Nat := 27
def ActionType_Copy_Field : Nat := 28
def ActionType_Meter : Nat := 29
def ActionType_Experimenter : Nat := 0xffff

/-! ## ActionHeader -/

/-- Go: `type ActionHeader struct { Type uint16; Length uint16 }`. -/
structure ActionHeader where
  Type_ : Nat
  Length : Nat
  deriving DecidableEq, Repr

/-- Go's `new(ActionHeader)`. -/
def ActionHeader.zero : ActionHeader := { Type_ := 0, Length := 0 }

def ActionHeader.Len (_a : ActionHeader) : Nat := 4

def ActionHeader.MarshalBinary (a : ActionHeader) : Outcome (List Nat × Option Error) := do
  let data := make a.Len
  let head ← sliceTo data 2
  let head ← PutUint16 head a.Type_
  let data := head ++ data.drop 2
  let mid ← subslice data 2 4
  let mid ← PutUint16 mid a.Length
  let data := data.take 2 ++ mid ++ data.drop 4
  pure (data, none)

def ActionHeader.UnmarshalBinary (a : ActionHeader) (data : List Nat) :
    Outcome (ActionHeader × Option Error) :=
  if data.length < a.Len then
    pure (a, some .headerWrongSize)
  else do
    let head ← sliceTo data 2
    let t ← Uint16 head
    let a := { a with Type_ := t }
    let mid ← subslice data 2 4
    let l ← Uint16 mid
    let a := { a with Length := l }
    pure (a, none)

/-! ## ActionOutput -/

/-- Go: `type ActionOutput struct { ActionHeader; Port uint32; MaxLen uint16; pad []byte }`. -/
structure ActionOutput extends ActionHeader where
  Port : Nat
  MaxLen : Nat
  pad : List Nat
  deriving DecidableEq, Repr

def OFPCML_MAX : Nat := 0xffe5
def OFPCML_NO_BUFFER : Nat := 0xffff

/-- Go's `new(ActionOutput)`; the nil slice `pad` is the empty list. -/
def ActionOutput.zero : ActionOutput :=
  { toActionHeader := ActionHeader.zero, Port := 0, MaxLen := 0, pad := [] }

def ActionOutput.Len (a : ActionOutput) : Nat := (a.toActionHeader.Len + 12) % 2 ^ 16

def NewActionOutput (portNum : Nat) : ActionOutput :=
  let act := ActionOutput.zero
  let act := { act with Type_ := ActionType_Output }
  let act := { act with Length := act.Len }
  let act := { act with Port := portNum }
  let act := { act with MaxLen := OFPCML_NO_BUFFER }
  let act := { act with pad := make 6 }
  act

def ActionOutput.MarshalBinary (a : ActionOutput) : Outcome (List Nat × Option Error) := do
  let data := make a.Len
  let n := 0
  let (b, err) ← a.toActionHeader.MarshalBinary
  match err with
  | some e => pure (data, some e)
  | none =>
    let data ← copyAt data n b
    let n := n + b.length
    let data ← PutUint32At data n a.Port
    let n := n + 4
    let data ← PutUint16At data n a.MaxLen
    let n := n + 2
    let data ← copyAt data n a.pad
    pure (data, none)

def ActionOutput.UnmarshalBinary (a : ActionOutput) (data : List Nat) :
    Outcome (ActionOutput × Option Error) :=
  if data.length < a.Len then
    pure (a, some .outputWrongSize)
  else do
    let n := 0
    let (h, err) ← a.toActionHeader.UnmarshalBinary (← sliceFrom data n)
    let a := { a with toActionHeader := h }
    match err with
    | some e => pure (a, some e)
    | none =>
      let n := n + a.toActionHeader.Len
      let port ← Uint32 (← sliceFrom data n)
      let a := { a with Port := port }
      let n := n + 4
      let maxLen ← Uint16 (← sliceFrom data n)
      let a := { a with MaxLen := maxLen }
      let n := n + 2
      let src ← subslice data n (n + 6)
      let a := { a with pad := copy a.pad src }
      pure (a, none)

/-! ## ActionSetqueue -/

/-- Go: `type ActionSetqueue struct { ActionHeader; QueueId uint32 }`. -/
structure ActionSetqueue extends ActionHeader where
  QueueId : Nat
  deriving DecidableEq, Repr

def ActionSetqueue.zero : ActionSetqueue :=
  { toActionHeader := ActionHeader.zero, QueueId := 0 }

def ActionSetqueue.Len (a : ActionSetqueue) : Nat := (a.toActionHeader.Len + 4) % 2 ^ 16

def NewActionSetQueue (queue : Nat) : ActionSetqueue :=
  let a := ActionSetqueue.zero
  let a := { a with Type_ := ActionType_SetQueue }
  let a := { a with Length := a.Len }
  let a := { a with QueueId := queue }
  a

def ActionSetqueue.MarshalBinary (a : ActionSetqueue) : Outcome (List Nat × Option Error) := do
  let (data, err) ← a.toActionHeader.MarshalBinary
  match err with
  | some e => pure (data, some e)
  | none =>
    let bytes := make 4
    let bytes ← PutUint32At bytes 0 a.QueueId
    let data := data ++ bytes
    pure (data, none)

def ActionSetqueue.UnmarshalBinary (a : ActionSetqueue) (data : List Nat) :
    Outcome (ActionSetqueue × Option Error) :=
  if data.length ≠ a.Len then
    pure (a, some .enqueueWrongSize)
  else do
    let (h, _) ← a.toActionHeader.UnmarshalBinary (← sliceTo data 4)
    let a := { a with toActionHeader := h }
    let q ← Uint32 (← subslice data 4 8)
    let a := { a with QueueId := q }
    pure (a, none)

/-! ## ActionGroup -/

/-- Go: `type ActionGroup struct { ActionHeader; GroupId uint32 }`. -/
structure ActionGroup extends ActionHeader where
  GroupId : Nat
  deriving DecidableEq, Repr

def ActionGroup.zero : ActionGroup :=
  { toActionHeader := ActionHeader.zero, GroupId := 0 }

def ActionGroup.Len (a : ActionGroup) : Nat := (a.toActionHeader.Len + 4) % 2 ^ 16

def NewActionGroup (group : Nat) : ActionGroup :=
  let a := ActionGroup.zero
  let a := { a with Type_ := ActionType_Group }
  let a := { a with Length := a.Len }
  let a := { a with GroupId := group }
  a

def ActionGroup.MarshalBinary (a : ActionGroup) : Outcome (List Nat × Option Error) := do
  let data := make a.Len
  let n := 0
  let (b, err) ← a.toActionHeader.MarshalBinary
  match err with
  | some e => pure (data, some e)
  | none =>
    let data ← copyAt data n b
    let n := n + b.length
    let data ← PutUint32At data n a.GroupId
    pure (data, none)

def ActionGroup.UnmarshalBinary (a : ActionGroup) (data : List Nat) :
    Outcome (ActionGroup × Option Error) :=
  if data.length < a.Len then
    pure (a, some .outputWrongSize)
  else do
    let n := 0
    let (h, err) ← a.toActionHeader.UnmarshalBinary (← sliceFrom data n)
    let a := { a with toActionHeader := h }
    match err with
    | some e => pure (a, some e)
    | none =>
      let n := n + a.toActionHeader.Len
      let g ← Uint32 (← sliceFrom data n)
      let a := { a with GroupId := g }
      pure (a, none)

/-! ## ActionMplsTtl -/

/-- Go: `type ActionMplsTtl struct { ActionHeader; MplsTtl uint8 }`. -/
structure ActionMplsTtl extends ActionHeader where
  MplsTtl : Nat
  deriving DecidableEq, Repr

def ActionMplsTtl.zero : ActionMplsTtl :=
  { toActionHeader := ActionHeader.zero, MplsTtl := 0 }

def ActionMplsTtl.Len (a : ActionMplsTtl) : Nat := (a.toActionHeader.Len + 4) % 2 ^ 16

def ActionMplsTtl.MarshalBinary (a : ActionMplsTtl) : Outcome (List Nat × Option Error) := do
  let (data, err) ← a.toActionHeader.MarshalBinary
  match err with
  | some e => pure (data, some e)
  | none =>
    let n := a.toActionHeader.Len
    let data ← setIndex data n a.MplsTtl
    pure (data, none)

def ActionMplsTtl.UnmarshalBinary (a : ActionMplsTtl) (data : List Nat) :
    Outcome (ActionMplsTtl × Option Error) := do
  let n := 0
  let (h, err) ← a.toActionHeader.UnmarshalBinary (← sliceFrom data n)
  let a := { a with toActionHeader := h }
  match err with
  | some e => pure (a, some e)
  | none =>
    let n := n + a.toActionHeader.Len
    let t ← index data n
    let a := { a with MplsTtl := t }
    pure (a, none)

/-! ## ActionDecNwTtl -/

/-- Go: `type ActionDecNwTtl struct { ActionHeader; pad []byte }`. -/
structure ActionDecNwTtl extends ActionHeader where
  pad : List Nat
  deriving DecidableEq, Repr

def ActionDecNwTtl.zero : ActionDecNwTtl :=
  { toActionHeader := ActionHeader.zero, pad := [] }

def ActionDecNwTtl.Len (a : ActionDecNwTtl) : Nat := (a.toActionHeader.Len + 4) % 2 ^ 16

def NewActionDecNwTtl : ActionDecNwTtl :=
  let act := ActionDecNwTtl.zero
  let act := { act with Type_ := ActionType_DecNwTtl }
  let act := { act with Length := act.Len }
  let act := { act with pad := make 4 }
  act

def ActionDecNwTtl.MarshalBinary (a : ActionDecNwTtl) : Outcome (List Nat × Option Error) := do
  let (data, err) ← a.toActionHeader.MarshalBinary
  match err with
  | some e => pure (data, some e)
  | none =>
    let bytes := make 4
    let data := data ++ bytes
    pure (data, none)

def ActionDecNwTtl.UnmarshalBinary (a : ActionDecNwTtl) (data : List Nat) :
    Outcome (ActionDecNwTtl × Option Error) := do
  let (h, err) ← a.toActionHeader.UnmarshalBinary (← sliceTo data 4)
  pure ({ a with toActionHeader := h }, err)

/-! ## ActionNwTtl -/

/-- Go: `type ActionNwTtl struct { ActionHeader; NwTtl uint8 }`. -/
structure ActionNwTtl extends ActionHeader where
  NwTtl : Nat
  deriving DecidableEq, Repr

def ActionNwTtl.zero : ActionNwTtl :=
  { toActionHeader := ActionHeader.zero, NwTtl := 0 }

def ActionNwTtl.Len (a : ActionNwTtl) : Nat := (a.toActionHeader.Len + 4) % 2 ^ 16

def ActionNwTtl.MarshalBinary (a : ActionNwTtl) : Outcome (List Nat × Option Error) := do
  let (data, err) ← a.toActionHeader.MarshalBinary
  match err with
  | some e => pure (data, some e)
  | none =>
    let n := a.toActionHeader.Len
    let data ← setIndex data n a.NwTtl
    pure (data, none)

def ActionNwTtl.UnmarshalBinary (a : ActionNwTtl) (data : List Nat) :
    Outcome (ActionNwTtl × Option Error) := do
  let n := 0
  let (h, err) ← a.toActionHeader.UnmarshalBinary (← sliceFrom data n)
  let a := { a with toActionHeader := h }
  match err with
  | some e => pure (a, some e)
  | none =>
    let n := n + a.toActionHeader.Len
    let t ← index data n
    let a := { a with NwTtl := t }
    pure (a, none)

/-! ## ActionPush -/

/-- Go: `type ActionPush struct { ActionHeader; EtherType uint16 }`. -/
structure ActionPush extends ActionHeader where
  EtherType : Nat
  deriving DecidableEq, Repr

def ActionPush.zero : ActionPush :=
  { toActionHeader := ActionHeader.zero, EtherType := 0 }

def ActionPush.Len (a : ActionPush) : Nat := (a.toActionHeader.Len + 4) % 2 ^ 16

def NewActionPushVlan (etherType : Nat) : ActionPush :=
  let a := ActionPush.zero
  let a := { a with Type_ := ActionType_PushVlan }
  let a := { a with Length := a.Len }
  let a := { a with EtherType := etherType }
  a

def NewActionPushMpls (etherType : Nat) : ActionPush :=
  let a := ActionPush.zero
  let a := { a with Type_ := ActionType_PushMpls }
  let a := { a with Length := a.Len }
  let a := { a with EtherType := etherType }
  a

def ActionPush.MarshalBinary (a : ActionPush) : Outcome (List Nat × Option Error) := do
  let (data, err) ← a.toActionHeader.MarshalBinary
  match err with
  | some e => pure (data, some e)
  | none =>
    let bytes := make 4
    let bytes ← PutUint16At bytes 0 a.EtherType
    let data := data ++ bytes
    pure (data, none)

def ActionPush.UnmarshalBinary (a : ActionPush) (data : List Nat) :
    Outcome (ActionPush × Option Error) := do
  let (h, _) ← a.toActionHeader.UnmarshalBinary (← sliceTo data 4)
  let a := { a with toActionHeader := h }
  let e ← Uint16 (← sliceFrom data 4)
  let a := { a with EtherType := e }
  pure (a, none)

/-! ## ActionPopVlan -/

/-- Go: `type ActionPopVlan struct { ActionHeader }`. -/
structure ActionPopVlan extends ActionHeader where
  deriving DecidableEq, Repr

def ActionPopVlan.zero : ActionPopVlan :=
  { toActionHeader := ActionHeader.zero }

def ActionPopVlan.Len (a : ActionPopVlan) : Nat := (a.toActionHeader.Len + 4) % 2 ^ 16

def NewActionPopVlan : ActionPopVlan :=
  let act := ActionPopVlan.zero
  let act := { act with Type_ := ActionType_PopVlan }
  let act := { act with Length := act.Len }
  act

def ActionPopVlan.MarshalBinary (a : ActionPopVlan) : Outcome (List Nat × Option Error) := do
  let (data, err) ← a.toActionHeader.MarshalBinary
  match err with
  | some e => pure (data, some e)
  | none =>
    let bytes := make 4
    let data := data ++ bytes
    pure (data, none)

def ActionPopVlan.UnmarshalBinary (a : ActionPopVlan) (data : List Nat) :
    Outcome (ActionPopVlan × Option Error) := do
  let (h, _) ← a.toActionHeader.UnmarshalBinary (← sliceTo data 4)
  let a := { a with toActionHeader := h }
  pure (a, none)

/-! ## ActionPopMpls -/

/-- Go: `type ActionPopMpls struct { ActionHeader; EtherType uint16 }`. -/
structure ActionPopMpls extends ActionHeader where
  EtherType : Nat
  deriving DecidableEq, Repr

def ActionPopMpls.zero : ActionPopMpls :=
  { toActionHeader := ActionHeader.zero, EtherType := 0 }

def ActionPopMpls.Len (a : ActionPopMpls) : Nat := (a.toActionHeader.Len + 4) % 2 ^ 16

def NewActionPopMpls (etherType : Nat) : ActionPopMpls :=
  let act := ActionPopMpls.zero
  let act := { act with Type_ := ActionType_PopMpls }
  let act := { act with EtherType := etherType }
  let act := { act with Length := act.Len }
  act

def ActionPopMpls.MarshalBinary (a : ActionPopMpls) : Outcome (List Nat × Option Error) := do
  let (data, err) ← a.toActionHeader.MarshalBinary
  match err with
  | some e => pure (data, some e)
  | none =>
    let bytes := make 4
    let bytes ← PutUint16At bytes 0 a.EtherType
    let data := data ++ bytes
    pure (data, none)

def ActionPopMpls.UnmarshalBinary (a : ActionPopMpls) (data : List Nat) :
    Outcome (ActionPopMpls × Option Error) := do
  let (h, _) ← a.toActionHeader.UnmarshalBinary (← sliceTo data 4)
  let a := { a with toActionHeader := h }
  let e ← Uint16 (← sliceFrom data 4)
  let a := { a with EtherType := e }
  pure (a, none)

/-! ## ActionMeter -/

/-- Go: `type ActionMeter struct { ActionHeader; MeterId uint32 }`. -/
structure ActionMeter extends ActionHeader where
  MeterId : Nat
  deriving DecidableEq, Repr

def ActionMeter.zero : ActionMeter :=
  { toActionHeader := ActionHeader.zero, MeterId := 0 }

def ActionMeter.Len (a : ActionMeter) : Nat := (a.toActionHeader.Len + 4) % 2 ^ 16

def NewActionMeter (meterId : Nat) : ActionMeter :=
  let a := ActionMeter.zero
  let a := { a with Type_ := ActionType_Meter }
  let a := { a with Length := a.Len }
  let a := { a with MeterId := meterId }
  a

def ActionMeter.MarshalBinary (a : ActionMeter) : Outcome (List Nat × Option Error) := do
  let data := make a.Len
  let n := 0
  let (b, err) ← a.toActionHeader.MarshalBinary
  match err with
  | some e => pure (data, some e)
  | none =>
    let data := copy data b
    let n := n + a.toActionHeader.Len
    let data ← PutUint32At data n a.MeterId
    pure (data, none)

def ActionMeter.UnmarshalBinary (a : ActionMeter) (data : List Nat) :
    Outcome (ActionMeter × Option Error) := do
  let n := 0
  let (h, err) ← a.toActionHeader.UnmarshalBinary (← sliceFrom data n)
  let a := { a with toActionHeader := h }
  match err with
  | some e => pure (a, some e)
  | none =>
    let n := n + a.toActionHeader.Len
    let m ← Uint32 (← sliceFrom data n)
    let a := { a with MeterId := m }
    pure (a, none)

/-! ## The rest of the package

`action.go` and `action_ext.go` call into files of the package that are not part of this
development: the OXM codec (`MatchField`, `OxmId`) and the Nicira vendor actions
(`NxActionHeaderLength`, `NxExperimenterID`, `DecodeNxAction`, the subtype codes).  They are
taken as parameters, so that every statement made for an arbitrary environment holds
whatever they do. -/

/-- The declarations `action.go` uses from the rest of the package. -/
structure Env where
  /-- Go: `type MatchField struct`. -/
  MatchField : Type
  /-- Go: `type OxmId struct`. -/
  OxmId : Type
  /-- The concrete types behind the `Action` values that `DecodeNxAction` returns. -/
  NxAction : Type
  /-- The zero value of `MatchField`. -/
  MatchField_zero : MatchField
  /-- The zero value of `OxmId`. -/
  OxmId_zero : OxmId
  /-- Go: `const NxActionHeaderLength`. -/
  NxActionHeaderLength : Nat
  /-- Go: `const NxExperimenterID`. -/
  NxExperimenterID : Nat
  /-- Go: `func DecodeNxAction(data []byte) (Action, error)`. -/
  DecodeNxAction : List Nat → Outcome (Option NxAction × Option Error)
  /-- The method `UnmarshalBinary` of the value `DecodeNxAction` returned. -/
  NxAction_UnmarshalBinary : NxAction → List Nat → Outcome (NxAction × Option Error)
  /-- Go: `func (m *MatchField) Len() uint16`. -/
  MatchField_Len : MatchField → Outcome Nat
  /-- Go: `func (m *MatchField) UnmarshalBinary(data []byte) error`. -/
  MatchField_UnmarshalBinary : MatchField → List Nat → Outcome (MatchField × Option Error)
  /-- Go: `func (o *OxmId) Len() uint16`. -/
  OxmId_Len : OxmId → Outcome Nat
  /-- Go: `func (o *OxmId) UnmarshalBinary(data []byte) error`. -/
  OxmId_UnmarshalBinary : OxmId → List Nat → Outcome (OxmId × Option Error)
  /-- Go: `func (m *MatchField) MarshalBinary() (data []byte, err error)`. -/
  MatchField_MarshalBinary : MatchField → Outcome (List Nat × Option Error)
  /-- Go: `func (m *MatchField) MarshalHeader() uint32`. -/
  MatchField_MarshalHeader : MatchField → Outcome Nat
  /-- Go: `func (m *MatchField) UnmarshalHeader(data []byte) error`. -/
  MatchField_UnmarshalHeader : MatchField → List Nat → Outcome (MatchField × Option Error)
  /-- Go: `func (o *OxmId) MarshalBinary() (data []byte, err error)`. -/
  OxmId_MarshalBinary : OxmId → Outcome (List Nat × Option Error)
  /-- Go: `const NXAST_STACK_PUSH`. -/
  NXAST_STACK_PUSH : Nat
  /-- Go: `const NXAST_STACK_POP`. -/
  NXAST_STACK_POP : Nat
  /-- Go: `const NXAST_RAW_ENCAP`. -/
  NXAST_RAW_ENCAP : Nat
  /-- Go: `const NXAST_RAW_DECAP`. -/
  NXAST_RAW_DECAP : Nat
  /-- Go: `const OXM_CLASS_NXM_0`. -/
  OXM_CLASS_NXM_0 : Nat
  /-- Go: `const OXM_CLASS_NXM_1`. -/
  OXM_CLASS_NXM_1 : Nat
  /-- Go: `const NXM_OF_IN_PORT`. -/
  NXM_OF_IN_PORT : Nat
  /-- Go: `const NXM_NX_MPLS_TTL`. -/
  NXM_NX_MPLS_TTL : Nat

/-! ## ActionSetField -/

/-- Go: `type ActionSetField struct { ActionHeader; Field MatchField }`. -/
structure ActionSetField (E : Env) extends ActionHeader where
  Field : E.MatchField

def ActionSetField.zero (E : Env) : ActionSetField E :=
  { toActionHeader := ActionHeader.zero, Field := E.MatchField_zero }

def ActionSetField.UnmarshalBinary {E : Env} (a : ActionSetField E) (data : List Nat) :
    Outcome (ActionSetField E × Option Error) := do
  let n := 0
  let (h, err) ← a.toActionHeader.UnmarshalBinary (← sliceFrom data n)
  let a := { a with toActionHeader := h }
  match err with
  | some e => pure (a, some e)
  | none =>
    let n := n + a.toActionHeader.Len
    let (f, err) ← E.MatchField_UnmarshalBinary a.Field (← sliceFrom data n)
    let a := { a with Field := f }
    match err with
    | some e => pure (a, some e)
    | none =>
      let _ ← E.MatchField_Len a.Field
      pure (a, none)

/-! ## ActionCopyField -/

/-- Go: `type ActionCopyField struct { ActionHeader; NBits, SrcOffset, DstOffset, Pad uint16;
OxmIdSrc, OxmIdDst OxmId }`. -/
structure ActionCopyField (E : Env) extends ActionHeader where
  NBits : Nat
  SrcOffset : Nat
  DstOffset : Nat
  Pad : Nat
  OxmIdSrc : E.OxmId
  OxmIdDst : E.OxmId

def ActionCopyField.zero (E : Env) : ActionCopyField E :=
  { toActionHeader := ActionHeader.zero, NBits := 0, SrcOffset := 0, DstOffset := 0, Pad := 0,
    OxmIdSrc := E.OxmId_zero, OxmIdDst := E.OxmId_zero }

def ActionCopyField.UnmarshalBinary {E : Env} (a : ActionCopyField E) (data : List Nat) :
    Outcome (ActionCopyField E × Option Error) := do
  let n := 0
  let (h, err) ← a.toActionHeader.UnmarshalBinary (← sliceFrom data n)
  let a := { a with toActionHeader := h }
  match err with
  | some e => pure (a, some e)
  | none =>
    let n := (n + a.toActionHeader.Len) % 2 ^ 16
    let nBits ← Uint16 (← sliceFrom data n)
    let a := { a with NBits := nBits }
    let n := (n + 2) % 2 ^ 16
    let srcOffset ← Uint16 (← sliceFrom data n)
    let a := { a with SrcOffset := srcOffset }
    let n := (n + 2) % 2 ^ 16
    let dstOffset ← Uint16 (← sliceFrom data n)
    let a := { a with DstOffset := dstOffset }
    let n := (n + 2) % 2 ^ 16
    let n := (n + 2) % 2 ^ 16
    let (src, err) ← E.OxmId_UnmarshalBinary a.OxmIdSrc (← sliceFrom data n)
    let a := { a with OxmIdSrc := src }
    match err with
    | some e => pure (a, some e)
    | none =>
      let n := (n + (← E.OxmId_Len a.OxmIdSrc)) % 2 ^ 16
      let (dst, err) ← E.OxmId_UnmarshalBinary a.OxmIdDst (← sliceFrom data n)
      let a := { a with OxmIdDst := dst }
      match err with
      | some e => pure (a, some e)
      | none =>
        let _ ← E.OxmId_Len a.OxmIdDst
        pure (a, none)

/-! ## The dispatcher -/

/-- Go: `type Action interface`, as the sum of the concrete types `DecodeAction` can
return. -/
inductive Action (E : Env) where
  | Header (a : ActionHeader)
  | Output (a : ActionOutput)
  | Setqueue (a : ActionSetqueue)
  | Group (a : ActionGroup)
  | MplsTtl (a : ActionMplsTtl)
  | DecNwTtl (a : ActionDecNwTtl)
  | NwTtl (a : ActionNwTtl)
  | Push (a : ActionPush)
  | PopVlan (a : ActionPopVlan)
  | PopMpls (a : ActionPopMpls)
  | SetField (a : ActionSetField E)
  | CopyField (a : ActionCopyField E)
  | Meter (a : ActionMeter)
  | Nx (a : E.NxAction)

/-- The dynamic call `a.UnmarshalBinary(data)` on an `Action`. -/
def Action.UnmarshalBinary {E : Env} (a : Action E) (data : List Nat) :
    Outcome (Action E × Option Error) :=
  match a with
  | .Header a => do let (a, err) ← a.UnmarshalBinary data; pure (.Header a, err)
  | .Output a => do let (a, err) ← a.UnmarshalBinary data; pure (.Output a, err)
  | .Setqueue a => do let (a, err) ← a.UnmarshalBinary data; pure (.Setqueue a, err)
  | .Group a => do let (a, err) ← a.UnmarshalBinary data; pure (.Group a, err)
  | .MplsTtl a => do let (a, err) ← a.UnmarshalBinary data; pure (.MplsTtl a, err)
  | .DecNwTtl a => do let (a, err) ← a.UnmarshalBinary data; pure (.DecNwTtl a, err)
  | .NwTtl a => do let (a, err) ← a.UnmarshalBinary data; pure (.NwTtl a, err)
  | .Push a => do let (a, err) ← a.UnmarshalBinary data; pure (.Push a, err)
  | .PopVlan a => do let (a, err) ← a.UnmarshalBinary data; pure (.PopVlan a, err)
  | .PopMpls a => do let (a, err) ← a.UnmarshalBinary data; pure (.PopMpls a, err)
  | .SetField a => do let (a, err) ← a.UnmarshalBinary data; pure (.SetField a, err)
  | .CopyField a => do let (a, err) ← a.UnmarshalBinary data; pure (.CopyField a, err)
  | .Meter a => do let (a, err) ← a.UnmarshalBinary data; pure (.Meter a, err)
  | .Nx a => do let (a, err) ← E.NxAction_UnmarshalBinary a data; pure (.Nx a, err)

/-- The part of `DecodeAction` after its `switch`: `a` is the value the chosen case
assigned (`none` when the case left it nil). -/
def DecodeAction.unmarshal {E : Env} (t : Nat) (a : Option (Action E)) (data : List Nat) :
    Outcome (Option (Action E) × Option Error) :=
  match a with
  | none => pure (none, some (.unknownType t))
  | some a => do
    let (a, err) ← a.UnmarshalBinary data
    match err with
    | some e => pure (some a, some e)
    | none => pure (some a, none)

/-- The `case ActionType_Experimenter` of `DecodeAction`, with what follows it. -/
def DecodeAction.experimenter (E : Env) (t : Nat) (data : List Nat) :
    Outcome (Option (Action E) × Option Error) :=
  if data.length < E.NxActionHeaderLength then
    pure (none, some .experimenterTooShort)
  else do
    let v ← Uint32 (← subslice data 4 8)
    if v = E.NxExperimenterID then
      let (a, err) ← E.DecodeNxAction data
      match err with
      | some e => pure (none, some (.failedToDecodeNxAction e data))
      | none =>
        match a with
        | none => pure (none, some (.noSupportedNxAction data))
        | some a => DecodeAction.unmarshal t (some (.Nx a)) data
    else
      DecodeAction.unmarshal t none data

def DecodeAction (E : Env) (data : List Nat) : Outcome (Option (Action E) × Option Error) := do
  let t ← Uint16 (← sliceTo data 2)
  if t = ActionType_Output then DecodeAction.unmarshal t (some (.Output .zero)) data
  else if t = ActionType_CopyTtlOut then DecodeAction.unmarshal t (some (.Header .zero)) data
  else if t = ActionType_CopyTtlIn then DecodeAction.unmarshal t (some (.Header .zero)) data
  else if t = ActionType_SetMplsTtl then DecodeAction.unmarshal t (some (.MplsTtl .zero)) data
  else if t = ActionType_DecMplsTtl then DecodeAction.unmarshal t (some (.Header .zero)) data
  else if t = ActionType_PushVlan then DecodeAction.unmarshal t (some (.Push .zero)) data
  else if t = ActionType_PopVlan then DecodeAction.unmarshal t (some (.PopVlan .zero)) data
  else if t = ActionType_PushMpls then DecodeAction.unmarshal t (some (.Push .zero)) data
  else if t = ActionType_PopMpls then DecodeAction.unmarshal t (some (.PopMpls .zero)) data
  else if t = ActionType_SetQueue then DecodeAction.unmarshal t (some (.Setqueue .zero)) data
  else if t = ActionType_Group then DecodeAction.unmarshal t (some (.Group .zero)) data
  else if t = ActionType_SetNwTtl then DecodeAction.unmarshal t (some (.NwTtl .zero)) data
  else if t = ActionType_DecNwTtl then DecodeAction.unmarshal t (some (.DecNwTtl .zero)) data
  else if t = ActionType_SetField then
    DecodeAction.unmarshal t (some (.SetField (.zero E))) data
  else if t = ActionType_PushPbb then DecodeAction.unmarshal t (some (.Push .zero)) data
  else if t = ActionType_PopPbb then DecodeAction.unmarshal t (some (.Header .zero)) data
  else if t = ActionType_Copy_Field then
    DecodeAction.unmarshal t (some (.CopyField (.zero E))) data
  else if t = ActionType_Meter then DecodeAction.unmarshal t (some (.Meter .zero)) data
  else if t = ActionType_Experimenter then DecodeAction.experimenter E t data
  else pure (none, some (.unknownType t))

/-- A concrete environment on which the dispatcher can be run: the 10-byte vendor prefix
that the comment in the experimenter case of `DecodeAction` states, the Nicira vendor id, and
OXM and vendor decoders that recognise nothing.  The statements about `DecodeAction` hold for
every environment; this one instantiates them. -/
def Env.bare : Env where
  MatchField := Unit
  OxmId := Unit
  NxAction := Unit
  MatchField_zero := ()
  OxmId_zero := ()
  NxActionHeaderLength := 10
  NxExperimenterID := 0x2320
  DecodeNxAction := fun _ => .ret (none, none)
  NxAction_UnmarshalBinary := fun a _ => .ret (a, none)
  MatchField_Len := fun _ => .ret 4
  MatchField_UnmarshalBinary := fun m _ => .ret (m, some (.external 0))
  OxmId_Len := fun _ => .ret 4
  OxmId_UnmarshalBinary := fun o _ => .ret (o, some (.external 0))
  MatchField_MarshalBinary := fun _ => .ret ([], some (.external 0))
  MatchField_MarshalHeader := fun _ => .ret 0
  MatchField_UnmarshalHeader := fun m _ => .ret (m, some (.external 0))
  OxmId_MarshalBinary := fun _ => .ret ([], some (.external 0))
  NXAST_STACK_PUSH := 27
  NXAST_STACK_POP := 28
  NXAST_RAW_ENCAP := 46
  NXAST_RAW_DECAP := 47
  OXM_CLASS_NXM_0 := 0x0000
  OXM_CLASS_NXM_1 := 0x0001
  NXM_OF_IN_PORT := 0
  NXM_NX_MPLS_TTL := 30

/-! ## ActionSetField and ActionCopyField: lengths and encoders -/

def ActionSetField.Len {E : Env} (a : ActionSetField E) : Outcome Nat := do
  let n := (a.toActionHeader.Len + (← E.MatchField_Len a.Field)) % 2 ^ 16
  let n := (n + 7) % 2 ^ 16 / 8 * 8 % 2 ^ 16
  pure n

def NewActionSetField (E : Env) (field : E.MatchField) : Outcome (ActionSetField E) := do
  let a := ActionSetField.zero E
  let a := { a with Type_ := ActionType_SetField }
  let a := { a with Field := field }
  let a := { a with Length := (← a.Len) }
  pure a

def ActionSetField.MarshalBinary {E : Env} (a : ActionSetField E) :
    Outcome (List Nat × Option Error) := do
  let data := make (← a.Len)
  let n := 0
  let (b, err) ← a.toActionHeader.MarshalBinary
  match err with
  | some e => pure (data, some e)
  | none =>
    let data := copy data b
    let n := n + a.toActionHeader.Len
    let (b, err) ← E.MatchField_MarshalBinary a.Field
    match err with
    | some e => pure (data, some e)
    | none =>
      let data ← copyAt data n b
      pure (data, none)

def ActionCopyField.Len {E : Env} (a : ActionCopyField E) : Outcome Nat := do
  let n := (a.toActionHeader.Len + 8) % 2 ^ 16
  let n := (n + (← E.OxmId_Len a.OxmIdSrc)) % 2 ^ 16
  let n := (n + (← E.OxmId_Len a.OxmIdDst)) % 2 ^ 16
  let n := (n + 7) % 2 ^ 16 / 8 * 8 % 2 ^ 16
  pure n

def NewActionCopyField (E : Env) (nBits srcOffset dstOffset : Nat)
    (srcOxmId dstOxmId : E.OxmId) : Outcome (ActionCopyField E) := do
  let a := ActionCopyField.zero E
  let a := { a with Type_ := ActionType_Copy_Field }
  let a := { a with Length := (← a.Len) }
  let a := { a with NBits := nBits }
  let a := { a with SrcOffset := srcOffset }
  let a := { a with DstOffset := dstOffset }
  let a := { a with OxmIdSrc := srcOxmId }
  let a := { a with OxmIdDst := dstOxmId }
  pure a

def ActionCopyField.MarshalBinary {E : Env} (a : ActionCopyField E) :
    Outcome (List Nat × Option Error) := do
  let data := make (← a.Len)
  let n := 0
  let (b, err) ← a.toActionHeader.MarshalBinary
  match err with
  | some e => pure (data, some e)
  | none =>
    let data := copy data b
    let n := (n + a.toActionHeader.Len) % 2 ^ 16
    let data ← PutUint16At data n a.NBits
    let n := (n + 2) % 2 ^ 16
    let data ← PutUint16At data n a.SrcOffset
    let n := (n + 2) % 2 ^ 16
    let data ← PutUint16At data n a.DstOffset
    let n := (n + 2) % 2 ^ 16
    let n := (n + 2) % 2 ^ 16
    let (b, err) ← E.OxmId_MarshalBinary a.OxmIdSrc
    match err with
    | some e => pure (data, some e)
    | none =>
      let data ← copyAt data n b
      let n := (n + (← E.OxmId_Len a.OxmIdSrc)) % 2 ^ 16
      let (b, err) ← E.OxmId_MarshalBinary a.OxmIdDst
      match err with
      | some e => pure (data, some e)
      | none =>
        let data ← copyAt data n b
        let _ ← E.OxmId_Len a.OxmIdDst
        pure (data, none)

/-! ## The vendor action prefix

`NXActionHeader` and `NewNxActionHeader` are declared in a file of the package that is not
part of this development; `action_ext.go` uses them. -/

/-- Modelled from the spec: the type `NXActionHeader`, "Experimenter/vendor sub-action
header — `{Type=0xffff, Length, Vendor: u32, Subtype: u16}`, itself used as the common prefix
for every vendor action". -/
structure NXActionHeader extends ActionHeader where
  Vendor : Nat
  Subtype : Nat
  deriving DecidableEq, Repr

/-- Go's `new(NXActionHeader)`. -/
def NXActionHeader.zero : NXActionHeader :=
  { toActionHeader := ActionHeader.zero, Vendor := 0, Subtype := 0 }

/-- Modelled from the spec: `NXActionHeader.Len`, the size of the "NX vendor action prefix
`Type=0xffff:2, Length:2, Vendor:4, Subtype:2`". -/
def NXActionHeader.Len (_a : NXActionHeader) : Nat := 10

/-- Modelled from the spec: `NewNxActionHeader(subtype)`, a prefix with `Type=0xffff`, the
recognized vendor ID and the given subtype; its `Length` is the size of the prefix until the
constructor of the vendor action sets it. -/
def NewNxActionHeader (E : Env) (subtype : Nat) : NXActionHeader :=
  { Type_ := ActionType_Experimenter, Length := 10, Vendor := E.NxExperimenterID,
    Subtype := subtype }

/-- Modelled from the spec: `NXActionHeader.MarshalBinary`, the 10 bytes
`Type=0xffff:2, Length:2, Vendor:4, Subtype:2`, all big-endian. -/
def NXActionHeader.MarshalBinary (a : NXActionHeader) : Outcome (List Nat × Option Error) := do
  let data := make a.Len
  let n := 0
  let (b, err) ← a.toActionHeader.MarshalBinary
  let data ← copyAt data n b
  let n := n + b.length
  let data ← PutUint32At data n a.Vendor
  let n := n + 4
  let data ← PutUint16At data n a.Subtype
  pure (data, err)

/-- Modelled from the spec: `NXActionHeader.UnmarshalBinary`, which fails unless "at least
enough bytes are present for a vendor sub-header (header + 4-byte vendor ID + 2-byte
subtype)" and then reads the four fields. -/
def NXActionHeader.UnmarshalBinary (a : NXActionHeader) (data : List Nat) :
    Outcome (NXActionHeader × Option Error) :=
  if data.length < a.Len then
    pure (a, some .truncatedInput)
  else do
    let n := 0
    let (h, err) ← ActionHeader.zero.UnmarshalBinary (← sliceFrom data n)
    let a := { a with toActionHeader := h }
    let n := n + 4
    let v ← Uint32 (← sliceFrom data n)
    let a := { a with Vendor := v }
    let n := n + 4
    let t ← Uint16 (← sliceFrom data n)
    let a := { a with Subtype := t }
    pure (a, err)

/-! ## NXActionEncap -/

/-- Go: `type NXActionEncap struct { *NXActionHeader; HeaderSize uint16; PacketType uint32 }`;
the embedded pointer is `none` when nil. -/
structure NXActionEncap where
  NXActionHeader : Option openflow15.NXActionHeader
  HeaderSize : Nat
  PacketType : Nat
  deriving DecidableEq, Repr

/-- Go: `return a.Length`, through the embedded pointer. -/
def NXActionEncap.Len (a : NXActionEncap) : Outcome Nat :=
  match a.NXActionHeader with
  | none => .panicked .nilPointerDereference
  | some h => pure h.Length

def NXActionEncap.UnmarshalBinary (a : NXActionEncap) (_data : List Nat) :
    Outcome (NXActionEncap × Option Error) :=
  pure (a, some .encapNotImplemented)

def NewNXActionEncap (E : Env) (pktType : Nat) : NXActionEncap :=
  let h := NewNxActionHeader E E.NXAST_RAW_ENCAP
  let a : NXActionEncap := { NXActionHeader := some h, HeaderSize := 0, PacketType := pktType }
  let a := { a with NXActionHeader := some { h with Length := 16 } }
  a

def NewNXActionDecap (E : Env) (pktType : Nat) : NXActionEncap :=
  let h := NewNxActionHeader E E.NXAST_RAW_DECAP
  let a : NXActionEncap := { NXActionHeader := some h, HeaderSize := 0, PacketType := pktType }
  let a := { a with NXActionHeader := some { h with Length := 16 } }
  a

/-! ## NXActionStack -/

/-- Go: `type NXActionStack struct { *NXActionHeader; OfsNbits uint16; SrcField *MatchField;
Nbits uint16; zero [6]uint8 }`; a nil pointer is `none`. -/
structure NXActionStack (E : Env) where
  NXActionHeader : Option openflow15.NXActionHeader
  OfsNbits : Nat
  SrcField : Option E.MatchField
  Nbits : Nat
  zero : List Nat

/-- Go's `new(NXActionStack)`. -/
def NXActionStack.new (E : Env) : NXActionStack E :=
  { NXActionHeader := none, OfsNbits := 0, SrcField := none, Nbits := 0, zero := make 6 }

/-- Go: `return a.Length`, through the embedded pointer. -/
def NXActionStack.Len {E : Env} (a : NXActionStack E) : Outcome Nat :=
  match a.NXActionHeader with
  | none => .panicked .nilPointerDereference
  | some h => pure h.Length

def NXActionStack.MarshalBinary {E : Env} (a : NXActionStack E) :
    Outcome (List Nat × Option Error) := do
  let data := make (← a.Len)
  let n := 0
  let h ← (match a.NXActionHeader with
    | none => Outcome.panicked .nilPointerDereference
    | some h => pure h)
  let (b, err) ← h.MarshalBinary
  let data ← copyAt data n b
  let n := n + b.length
  let data ← PutUint16At data n a.OfsNbits
  let n := n + 2
  let f ← (match a.SrcField with
    | none => Outcome.panicked .nilPointerDereference
    | some f => pure f)
  let fieldHeaderData ← E.MatchField_MarshalHeader f
  let data ← PutUint32At data n fieldHeaderData
  let n := n + 4
  let data ← PutUint16At data n a.Nbits
  let n := n + 2
  let data ← copyAt data n (← sliceFrom a.zero 0)
  pure (data, err)

def NXActionStack.UnmarshalBinary {E : Env} (a : NXActionStack E) (data : List Nat) :
    Outcome (NXActionStack E × Option Error) := do
  let n := 0
  let a := { a with NXActionHeader := some NXActionHeader.zero }
  let (h, err) ← NXActionHeader.zero.UnmarshalBinary (← sliceFrom data n)
  let a := { a with NXActionHeader := some h }
  match err with
  | some e => pure (a, some e)
  | none =>
    let n := n + h.Len
    if data.length < (← a.Len) then
      pure (a, some .stackTooShort)
    else
      let o ← Uint16 (← sliceFrom data n)
      let a := { a with OfsNbits := o }
      let n := n + 2
      let a := { a with SrcField := some E.MatchField_zero }
      let (f, err) ← E.MatchField_UnmarshalHeader E.MatchField_zero (← subslice data n (n + 4))
      let a := { a with SrcField := some f }
      match err with
      | some e => pure (a, some (.stackSrcField e (← subslice data n (n + 4))))
      | none =>
        let n := n + 4
        let nb ← Uint16 (← sliceFrom data n)
        let a := { a with Nbits := nb }
        pure (a, none)

def newNXActionStack (E : Env) (act : Nat) : NXActionStack E :=
  let h := NewNxActionHeader E act
  let a : NXActionStack E :=
    { NXActionHeader := some h, OfsNbits := 0, SrcField := none, Nbits := 0, zero := make 6 }
  let a := { a with NXActionHeader := some { h with Length := 24 } }
  a

def NewNXActionStackPush (E : Env) (srcField : Option E.MatchField) (nBits : Nat) :
    NXActionStack E :=
  let h := NewNxActionHeader E E.NXAST_STACK_PUSH
  let a : NXActionStack E :=
    { NXActionHeader := some h, OfsNbits := 0, SrcField := none, Nbits := 0, zero := make 6 }
  let a := { a with NXActionHeader := some { h with Length := 24 } }
  let a := { a with SrcField := srcField }
  let a := { a with Nbits := nBits }
  a

def NewNXActionStackPop (E : Env) (srcField : Option E.MatchField) (nBits : Nat) :
    NXActionStack E :=
  let h := NewNxActionHeader E E.NXAST_STACK_POP
  let a : NXActionStack E :=
    { NXActionHeader := some h, OfsNbits := 0, SrcField := none, Nbits := 0, zero := make 6 }
  let a := { a with NXActionHeader := some { h with Length := 24 } }
  let a := { a with SrcField := srcField }
  let a := { a with Nbits := nBits }
  a

/-! ## OXM field values declared in `match_ext.go` and `action_ext.go` -/

/-- Go: `type NxmInportField struct { InPort uint16 }`. -/
structure NxmInportField where
  InPort : Nat
  deriving DecidableEq, Repr

def NxmInportField.Len (_m : NxmInportField) : Nat := 2

def NxmInportField.MarshalBinary (m : NxmInportField) : Outcome (List Nat × Option Error) := do
  let data := make 2
  let data ← PutUint16 data m.InPort
  pure (data, none)

def NxmInportField.UnmarshalBinary (m : NxmInportField) (data : List Nat) :
    Outcome (NxmInportField × Option Error) := do
  let v ← Uint16 data
  let m := { m with InPort := v }
  pure (m, none)

/-- Go: `type MplsTtlField struct { Ttl uint8 }`. -/
structure MplsTtlField where
  Ttl : Nat
  deriving DecidableEq, Repr

def MplsTtlField.Len (_m : MplsTtlField) : Nat := 1

def MplsTtlField.MarshalBinary (m : MplsTtlField) : Outcome (List Nat × Option Error) := do
  let data := make 1
  let data ← setIndex data 0 m.Ttl
  pure (data, none)

def MplsTtlField.UnmarshalBinary (m : MplsTtlField) (data : List Nat) :
    Outcome (MplsTtlField × Option Error) :=
  if data.length < m.Len then
    pure (m, some .mplsTtlFieldTooShort)
  else do
    let t ← index data 0
    let m := { m with Ttl := t }
    pure (m, none)

/-! ## The OXM codec, from the spec

`MatchField` and `OxmId` are declared in a file of the package that is not part of this
development.  The definitions of this section follow the spec's data model (§3), its OXM
field codec (§4.2) and its wire layouts (§6); they make up the environment `Env.wire`. -/

/-- Modelled from the spec: the `TypedFieldValue` a `MatchField` carries, here one of the two
value types the source at hand declares. -/
inductive FieldValue where
  | NxmInport (v : NxmInportField)
  | MplsTtl (v : MplsTtlField)
  deriving DecidableEq, Repr

/-- The dynamic call `v.Len()` on a field value. -/
def FieldValue.Len : FieldValue → Nat
  | .NxmInport v => v.Len
  | .MplsTtl v => v.Len

/-- The dynamic call `v.MarshalBinary()` on a field value. -/
def FieldValue.MarshalBinary : FieldValue → Outcome (List Nat × Option Error)
  | .NxmInport v => v.MarshalBinary
  | .MplsTtl v => v.MarshalBinary

/-- Modelled from the spec: the type `MatchField`, "`{Class: u16, Field: u8 (7 significant
bits), HasMask: bool, Length: u8, Value: TypedFieldValue, Mask: Option<TypedFieldValue>}`";
a nil `Value` or `Mask` is `none`. -/
structure MatchField where
  Class : Nat
  Field : Nat
  HasMask : Bool
  Length : Nat
  Value : Option FieldValue
  Mask : Option FieldValue
  deriving DecidableEq, Repr

/-- Go's `new(MatchField)`. -/
def MatchField.zero : MatchField :=
  { Class := 0, Field := 0, HasMask := false, Length := 0, Value := none, Mask := none }

/-- Modelled from the spec: `MatchField.MarshalHeader`, "the on-wire field-header packs
`Class`(16) + `Field`(7) + `HasMask`(1) + `Length`(8) into 4 bytes". -/
def MatchField.MarshalHeader (m : MatchField) : Nat :=
  m.Class % 2 ^ 16 * 2 ^ 16 + m.Field % 2 ^ 7 * 2 ^ 9 + (if m.HasMask then 2 ^ 8 else 0) +
    m.Length % 2 ^ 8

/-- Modelled from the spec: `MatchField.UnmarshalHeader`, the inverse of the header packing,
which fails on fewer than 4 bytes and "never reads a value". -/
def MatchField.UnmarshalHeader (m : MatchField) (data : List Nat) :
    Outcome (MatchField × Option Error) :=
  if data.length < 4 then
    pure (m, some .truncatedInput)
  else do
    let fld ← Uint32 data
    let m := { m with Class := fld / 2 ^ 16 % 2 ^ 16 }
    let m := { m with Field := fld / 2 ^ 9 % 2 ^ 7 }
    let m := { m with HasMask := decide (fld / 2 ^ 8 % 2 = 1) }
    let m := { m with Length := fld % 2 ^ 8 }
    pure (m, none)

/-- Modelled from the spec: `MatchField.Len`, the size of "header(4 bytes) + value-bytes
[+ mask-bytes if HasMask]". -/
def MatchField.Len (m : MatchField) : Outcome Nat :=
  match m.Value with
  | none => .panicked .nilPointerDereference
  | some v =>
    let n := (4 + v.Len) % 2 ^ 16
    if m.HasMask then
      match m.Mask with
      | none => .panicked .nilPointerDereference
      | some k => pure ((n + k.Len) % 2 ^ 16)
    else
      pure n

/-- Modelled from the spec: `MatchField.MarshalBinary`, "`encode(field) -> header(4 bytes) +
value-bytes [+ mask-bytes if HasMask]`". -/
def MatchField.MarshalBinary (m : MatchField) : Outcome (List Nat × Option Error) := do
  let data := make (← m.Len)
  let data ← PutUint32At data 0 m.MarshalHeader
  let n := 4
  let v ← (match m.Value with
    | none => Outcome.panicked .nilPointerDereference
    | some v => pure v)
  let (b, err) ← v.MarshalBinary
  let data ← copyAt data n b
  let n := n + b.length
  if m.HasMask then
    let k ← (match m.Mask with
      | none => Outcome.panicked .nilPointerDereference
      | some k => pure k)
    let (b, err) ← k.MarshalBinary
    let data ← copyAt data n b
    pure (data, err)
  else
    pure (data, err)

/-- Modelled from the spec: `MatchField.UnmarshalBinary`, which "fails with `TruncatedInput`
if buffer shorter than header-declared `Length` (doubled when `HasMask` is set), and fails
with `UnknownFieldType` if `(Class, Field)` is not a recognized combination".  The table of
recognized combinations is neither in the source at hand nor in the spec: none is
recognized here. -/
def MatchField.UnmarshalBinary (m : MatchField) (data : List Nat) :
    Outcome (MatchField × Option Error) := do
  let (m, err) ← m.UnmarshalHeader data
  match err with
  | some e => pure (m, some e)
  | none =>
    let need := if m.HasMask then 2 * m.Length else m.Length
    if data.length < 4 + need then
      pure (m, some .truncatedInput)
    else
      pure (m, some .unknownFieldType)

/-- Modelled from the spec: the field class that "needs an experimenter OXM extension"; the
value is the experimenter class of OpenFlow 1.5. -/
def OXM_CLASS_EXPERIMENTER : Nat := 0xffff

/-- Modelled from the spec: the type `OxmId`, "the field-identifying header only (`Class`,
`Field`, `HasMask`, `Length`) without a value payload", with the experimenter id that the
8-byte form carries. -/
structure OxmId where
  Class : Nat
  Field : Nat
  HasMask : Bool
  Length : Nat
  ExperimenterID : Nat
  deriving DecidableEq, Repr

/-- Go's `new(OxmId)`. -/
def OxmId.zero : OxmId :=
  { Class := 0, Field := 0, HasMask := false, Length := 0, ExperimenterID := 0 }

/-- Modelled from the spec: `OxmId.Len`, "4 or 8 bytes each depending on whether the field
class needs an experimenter OXM extension". -/
def OxmId.Len (o : OxmId) : Nat :=
  if o.Class = OXM_CLASS_EXPERIMENTER then 8 else 4

/-- Modelled from the spec: `OxmId.MarshalBinary`, the header `Class:2, Field+HasMask:1,
Length:1`, followed by the 4-byte experimenter id in the 8-byte form. -/
def OxmId.MarshalBinary (o : OxmId) : Outcome (List Nat × Option Error) := do
  let data := make o.Len
  let data ← PutUint16At data 0 o.Class
  let data ← setIndex data 2 (o.Field % 2 ^ 7 * 2 + (if o.HasMask then 1 else 0))
  let data ← setIndex data 3 (o.Length % 2 ^ 8)
  if o.Class = OXM_CLASS_EXPERIMENTER then
    let data ← PutUint32At data 4 o.ExperimenterID
    pure (data, none)
  else
    pure (data, none)

/-- Modelled from the spec: `OxmId.UnmarshalBinary`, "identical" to the field decoder "but
stops after the 4-byte header and never reads a value"; the 8-byte form also reads the
experimenter id. -/
def OxmId.UnmarshalBinary (o : OxmId) (data : List Nat) : Outcome (OxmId × Option Error) :=
  if data.length < 4 then
    pure (o, some .truncatedInput)
  else do
    let c ← Uint16 data
    let o := { o with Class := c }
    let f ← index data 2
    let o := { o with Field := f / 2 % 2 ^ 7 }
    let o := { o with HasMask := decide (f % 2 = 1) }
    let l ← index data 3
    let o := { o with Length := l }
    if o.Class = OXM_CLASS_EXPERIMENTER then
      if data.length < 8 then
        pure (o, some .truncatedInput)
      else
        let x ← Uint32 (← sliceFrom data 4)
        let o := { o with ExperimenterID := x }
        pure (o, none)
    else
      pure (o, none)

/-- Modelled from the spec: an environment whose OXM codec is the one of the spec (the
definitions above), with the 10-byte vendor prefix, the Nicira vendor id, subtype codes and
NXM class and field codes, and a vendor decoder that recognises nothing. -/
def Env.wire : Env where
  MatchField := openflow15.MatchField
  OxmId := openflow15.OxmId
  NxAction := Unit
  MatchField_zero := openflow15.MatchField.zero
  OxmId_zero := openflow15.OxmId.zero
  NxActionHeaderLength := 10
  NxExperimenterID := 0x2320
  DecodeNxAction := fun _ => .ret (none, none)
  NxAction_UnmarshalBinary := fun a _ => .ret (a, none)
  MatchField_Len := openflow15.MatchField.Len
  MatchField_UnmarshalBinary := openflow15.MatchField.UnmarshalBinary
  OxmId_Len := fun o => .ret (openflow15.OxmId.Len o)
  OxmId_UnmarshalBinary := openflow15.OxmId.UnmarshalBinary
  MatchField_MarshalBinary := openflow15.MatchField.MarshalBinary
  MatchField_MarshalHeader := fun m => .ret (openflow15.MatchField.MarshalHeader m)
  MatchField_UnmarshalHeader := openflow15.MatchField.UnmarshalHeader
  OxmId_MarshalBinary := openflow15.OxmId.MarshalBinary
  NXAST_STACK_PUSH := 27
  NXAST_STACK_POP := 28
  NXAST_RAW_ENCAP := 46
  NXAST_RAW_DECAP := 47
  OXM_CLASS_NXM_0 := 0x0000
  OXM_CLASS_NXM_1 := 0x0001
  NXM_OF_IN_PORT := 0
  NXM_NX_MPLS_TTL := 30

/-! ## The constructors of `match_ext.go` and `action_ext.go` for OXM fields

The class and field codes they store (`OXM_CLASS_NXM_0`, `NXM_OF_IN_PORT`, `OXM_CLASS_NXM_1`,
`NXM_NX_MPLS_TTL`) are constants of the environment. -/

def NewNxmInportField (E : Env) (inPort : Nat) : MatchField :=
  let f := MatchField.zero
  let f := { f with Class := E.OXM_CLASS_NXM_0 }
  let f := { f with Field := E.NXM_OF_IN_PORT }
  let f := { f with HasMask := false }
  let inPortField : NxmInportField := { InPort := 0 }
  let inPortField := { inPortField with InPort := inPort }
  let f := { f with Value := some (.NxmInport inPortField) }
  let f := { f with Length := inPortField.Len % 2 ^ 8 }
  f

def NewMplsTtlField (E : Env) (ttl : Nat) : MatchField :=
  let f := MatchField.zero
  let f := { f with Class := E.OXM_CLASS_NXM_1 }
  let f := { f with Field := E.NXM_NX_MPLS_TTL }
  let f := { f with HasMask := false }
  let ttlField : MplsTtlField := { Ttl := 0 }
  let ttlField := { ttlField with Ttl := ttl }
  let f := { f with Value := some (.MplsTtl ttlField) }
  let f := { f with Length := ttlField.Len % 2 ^ 8 }
  f

/-! ## Values used as concrete inputs -/

/-- An unmasked in-port field with port 5: class 0, field 0, a 2-byte value. -/
def inportField5 : MatchField :=
  { Class := 0, Field := 0, HasMask := false, Length := 2,
    Value := some (.NxmInport { InPort := 5 }), Mask := none }

/-- A set-field action that carries `inportField5`. -/
def setFieldInport5 : ActionSetField Env.wire :=
  { Type_ := 25, Length := 16, Field := inportField5 }

/-- An experimenter-class OXM id (8 bytes on the wire). -/
def experimenterOxmId : OxmId :=
  { Class := 0xffff, Field := 3, HasMask := false, Length := 4, ExperimenterID := 0x2320 }

/-- An OXM id of the OpenFlow basic class (4 bytes on the wire). -/
def basicOxmId : OxmId :=
  { Class := 0x8000, Field := 3, HasMask := false, Length := 4, ExperimenterID := 0 }

/-! ## Predicates used in the statements -/

/-- The marshalling result `out` is a success with `k` bytes, `k` is the action's `Len()`,
and bytes 2..3 of the output hold `k` big-endian. -/
def MarshalsLength (out : Outcome (List Nat × Option Error)) (len k : Nat) : Prop :=
  ∃ bytes, out = .ret (bytes, none) ∧ bytes.length = len ∧
    bytes.getD 2 0 * 2 ^ 8 + bytes.getD 3 0 = bytes.length ∧ bytes.length = k

/-! ## Big-endian arithmetic -/

theorem be16_roundtrip (v : Nat) (hv : v < 2 ^ 16) : v / 2 ^ 8 % 256 * 2 ^ 8 + v % 256 = v := by
  omega

theorem be32_roundtrip (v : Nat) (hv : v < 2 ^ 32) :
    v / 2 ^ 24 % 256 * 2 ^ 24 + v / 2 ^ 16 % 256 * 2 ^ 16 + v / 2 ^ 8 % 256 * 2 ^ 8 + v % 256
      = v := by
  omega

theorem be16_bytes (b0 b1 : Nat) (h0 : b0 < 256) (h1 : b1 < 256) :
    (b0 * 2 ^ 8 + b1) / 2 ^ 8 % 256 = b0 ∧ (b0 * 2 ^ 8 + b1) % 256 = b1 := by
  omega

theorem be32_bytes (b0 b1 b2 b3 : Nat) (h0 : b0 < 256) (h1 : b1 < 256) (h2 : b2 < 256)
    (h3 : b3 < 256) :
    (b0 * 2 ^ 24 + b1 * 2 ^ 16 + b2 * 2 ^ 8 + b3) / 2 ^ 24 % 256 = b0 ∧
    (b0 * 2 ^ 24 + b1 * 2 ^ 16 + b2 * 2 ^ 8 + b3) / 2 ^ 16 % 256 = b1 ∧
    (b0 * 2 ^ 24 + b1 * 2 ^ 16 + b2 * 2 ^ 8 + b3) / 2 ^ 8 % 256 = b2 ∧
    (b0 * 2 ^ 24 + b1 * 2 ^ 16 + b2 * 2 ^ 8 + b3) % 256 = b3 := by
  omega

/-! ## Evaluation of the codecs -/

theorem ActionHeader_MarshalBinary_eq (a : ActionHeader) :
    a.MarshalBinary =
      .ret ([a.Type_ / 2 ^ 8 % 256, a.Type_ % 256, a.Length / 2 ^ 8 % 256, a.Length % 256],
        none) := by
  simp [ActionHeader.MarshalBinary, ActionHeader.Len, make, sliceTo, subslice, PutUint16,
    List.replicate, bind, Outcome.bind, pure]

theorem ActionHeader_UnmarshalBinary_short (a : ActionHeader) (data : List Nat)
    (h : data.length < 4) : a.UnmarshalBinary data = .ret (a, some .headerWrongSize) := by
  simp [ActionHeader.UnmarshalBinary, ActionHeader.Len, h, pure]

theorem ActionHeader_UnmarshalBinary_cons (a : ActionHeader) (b0 b1 b2 b3 : Nat)
    (rest : List Nat) :
    a.UnmarshalBinary (b0 :: b1 :: b2 :: b3 :: rest) =
      .ret ({ Type_ := b0 * 2 ^ 8 + b1, Length := b2 * 2 ^ 8 + b3 }, none) := by
  simp [ActionHeader.UnmarshalBinary, ActionHeader.Len, sliceTo, subslice, Uint16, bind,
    Outcome.bind, pure]

theorem ActionOutput_MarshalBinary_eq (a : ActionOutput) :
    a.MarshalBinary =
      .ret ([a.Type_ / 2 ^ 8 % 256, a.Type_ % 256, a.Length / 2 ^ 8 % 256, a.Length % 256,
        a.Port / 2 ^ 24 % 256, a.Port / 2 ^ 16 % 256, a.Port / 2 ^ 8 % 256, a.Port % 256,
        a.MaxLen / 2 ^ 8 % 256, a.MaxLen % 256] ++ copy [0, 0, 0, 0, 0, 0] a.pad, none) := by
  simp only [ActionOutput.MarshalBinary, ActionHeader_MarshalBinary_eq]
  rfl

theorem ActionSetqueue_MarshalBinary_eq (a : ActionSetqueue) :
    a.MarshalBinary =
      .ret ([a.Type_ / 2 ^ 8 % 256, a.Type_ % 256, a.Length / 2 ^ 8 % 256, a.Length % 256,
        a.QueueId / 2 ^ 24 % 256, a.QueueId / 2 ^ 16 % 256, a.QueueId / 2 ^ 8 % 256,
        a.QueueId % 256], none) := by
  simp only [ActionSetqueue.MarshalBinary, ActionHeader_MarshalBinary_eq]
  rfl

theorem ActionGroup_MarshalBinary_eq (a : ActionGroup) :
    a.MarshalBinary =
      .ret ([a.Type_ / 2 ^ 8 % 256, a.Type_ % 256, a.Length / 2 ^ 8 % 256, a.Length % 256,
        a.GroupId / 2 ^ 24 % 256, a.GroupId / 2 ^ 16 % 256, a.GroupId / 2 ^ 8 % 256,
        a.GroupId % 256], none) := by
  simp only [ActionGroup.MarshalBinary, ActionHeader_MarshalBinary_eq]
  rfl

theorem ActionMplsTtl_MarshalBinary_panics (a : ActionMplsTtl) :
    a.MarshalBinary = .panicked .indexOutOfRange := by
  simp only [ActionMplsTtl.MarshalBinary, ActionHeader_MarshalBinary_eq]
  rfl

theorem ActionNwTtl_MarshalBinary_panics (a : ActionNwTtl) :
    a.MarshalBinary = .panicked .indexOutOfRange := by
  simp only [ActionNwTtl.MarshalBinary, ActionHeader_MarshalBinary_eq]
  rfl

theorem ActionDecNwTtl_MarshalBinary_eq (a : ActionDecNwTtl) :
    a.MarshalBinary =
      .ret ([a.Type_ / 2 ^ 8 % 256, a.Type_ % 256, a.Length / 2 ^ 8 % 256, a.Length % 256,
        0, 0, 0, 0], none) := by
  simp only [ActionDecNwTtl.MarshalBinary, ActionHeader_MarshalBinary_eq]
  rfl

theorem ActionPush_MarshalBinary_eq (a : ActionPush) :
    a.MarshalBinary =
      .ret ([a.Type_ / 2 ^ 8 % 256, a.Type_ % 256, a.Length / 2 ^ 8 % 256, a.Length % 256,
        a.EtherType / 2 ^ 8 % 256, a.EtherType % 256, 0, 0], none) := by
  simp only [ActionPush.MarshalBinary, ActionHeader_MarshalBinary_eq]
  rfl

theorem ActionPopVlan_MarshalBinary_eq (a : ActionPopVlan) :
    a.MarshalBinary =
      .ret ([a.Type_ / 2 ^ 8 % 256, a.Type_ % 256, a.Length / 2 ^ 8 % 256, a.Length % 256,
        0, 0, 0, 0], none) := by
  simp only [ActionPopVlan.MarshalBinary, ActionHeader_MarshalBinary_eq]
  rfl

theorem ActionPopMpls_MarshalBinary_eq (a : ActionPopMpls) :
    a.MarshalBinary =
      .ret ([a.Type_ / 2 ^ 8 % 256, a.Type_ % 256, a.Length / 2 ^ 8 % 256, a.Length % 256,
        a.EtherType / 2 ^ 8 % 256, a.EtherType % 256, 0, 0], none) := by
  simp only [ActionPopMpls.MarshalBinary, ActionHeader_MarshalBinary_eq]
  rfl

theorem ActionMeter_MarshalBinary_eq (a : ActionMeter) :
    a.MarshalBinary =
      .ret ([a.Type_ / 2 ^ 8 % 256, a.Type_ % 256, a.Length / 2 ^ 8 % 256, a.Length % 256,
        a.MeterId / 2 ^ 24 % 256, a.MeterId / 2 ^ 16 % 256, a.MeterId / 2 ^ 8 % 256,
        a.MeterId % 256], none) := by
  simp only [ActionMeter.MarshalBinary, ActionHeader_MarshalBinary_eq]
  rfl

theorem ActionOutput_UnmarshalBinary_cons (a : ActionOutput)
    (b0 b1 b2 b3 b4 b5 b6 b7 b8 b9 b10 b11 b12 b13 b14 b15 : Nat) (rest : List Nat) :
    a.UnmarshalBinary
        (b0 :: b1 :: b2 :: b3 :: b4 :: b5 :: b6 :: b7 :: b8 :: b9 :: b10 :: b11 :: b12 :: b13 ::
          b14 :: b15 :: rest) =
      .ret ({ Type_ := b0 * 2 ^ 8 + b1, Length := b2 * 2 ^ 8 + b3,
              Port := b4 * 2 ^ 24 + b5 * 2 ^ 16 + b6 * 2 ^ 8 + b7, MaxLen := b8 * 2 ^ 8 + b9,
              pad := copy a.pad [b10, b11, b12, b13, b14, b15] }, none) := by
  simp [ActionOutput.UnmarshalBinary, ActionOutput.Len, ActionHeader.Len, sliceFrom, subslice,
    ActionHeader_UnmarshalBinary_cons, Uint16, Uint32, bind, Outcome.bind, pure]

theorem ActionPush_UnmarshalBinary_cons (a : ActionPush) (b0 b1 b2 b3 b4 b5 : Nat)
    (rest : List Nat) :
    a.UnmarshalBinary (b0 :: b1 :: b2 :: b3 :: b4 :: b5 :: rest) =
      .ret ({ Type_ := b0 * 2 ^ 8 + b1, Length := b2 * 2 ^ 8 + b3,
              EtherType := b4 * 2 ^ 8 + b5 }, none) := by
  simp [ActionPush.UnmarshalBinary, sliceFrom, sliceTo, ActionHeader_UnmarshalBinary_cons,
    Uint16, bind, Outcome.bind, pure]

/-- A buffer that starts with type code 0 and holds at least 16 bytes decodes to an
`ActionOutput` whose fields are the big-endian values at their offsets. -/
theorem DecodeAction_output_cons (E : Env)
    (b2 b3 b4 b5 b6 b7 b8 b9 b10 b11 b12 b13 b14 b15 : Nat) (rest : List Nat) :
    DecodeAction E
        (0 :: 0 :: b2 :: b3 :: b4 :: b5 :: b6 :: b7 :: b8 :: b9 :: b10 :: b11 :: b12 :: b13 ::
          b14 :: b15 :: rest) =
      .ret (some (.Output
        { Type_ := 0, Length := b2 * 2 ^ 8 + b3,
          Port := b4 * 2 ^ 24 + b5 * 2 ^ 16 + b6 * 2 ^ 8 + b7, MaxLen := b8 * 2 ^ 8 + b9,
          pad := [] }), none) := by
  simp [DecodeAction, sliceTo, Uint16, bind, Outcome.bind, pure, ActionType_Output,
    DecodeAction.unmarshal, Action.UnmarshalBinary, ActionOutput_UnmarshalBinary_cons,
    ActionOutput.zero, copy]

/-- A buffer that starts with type code 17 and holds at least 6 bytes decodes to an
`ActionPush`. -/
theorem DecodeAction_pushVlan_cons (E : Env) (b2 b3 b4 b5 : Nat) (rest : List Nat) :
    DecodeAction E (0 :: 17 :: b2 :: b3 :: b4 :: b5 :: rest) =
      .ret (some (.Push
        { Type_ := 17, Length := b2 * 2 ^ 8 + b3, EtherType := b4 * 2 ^ 8 + b5 }), none) := by
  simp [DecodeAction, sliceTo, Uint16, bind, Outcome.bind, pure, ActionType_Output,
    ActionType_CopyTtlOut, ActionType_CopyTtlIn, ActionType_SetMplsTtl, ActionType_DecMplsTtl,
    ActionType_PushVlan, DecodeAction.unmarshal, Action.UnmarshalBinary,
    ActionPush_UnmarshalBinary_cons]

/-- A buffer that starts with type code 19 and holds at least 6 bytes decodes to an
`ActionPush`. -/
theorem DecodeAction_pushMpls_cons (E : Env) (b2 b3 b4 b5 : Nat) (rest : List Nat) :
    DecodeAction E (0 :: 19 :: b2 :: b3 :: b4 :: b5 :: rest) =
      .ret (some (.Push
        { Type_ := 19, Length := b2 * 2 ^ 8 + b3, EtherType := b4 * 2 ^ 8 + b5 }), none) := by
  simp [DecodeAction, sliceTo, Uint16, bind, Outcome.bind, pure, ActionType_Output,
    ActionType_CopyTtlOut, ActionType_CopyTtlIn, ActionType_SetMplsTtl, ActionType_DecMplsTtl,
    ActionType_PushVlan, ActionType_PopVlan, ActionType_PushMpls, DecodeAction.unmarshal,
    Action.UnmarshalBinary, ActionPush_UnmarshalBinary_cons]

/-! ## The constructors, evaluated -/

theorem NewActionOutput_eq (p : Nat) :
    NewActionOutput p =
      { Type_ := 0, Length := 16, Port := p, MaxLen := 0xffff, pad := [0, 0, 0, 0, 0, 0] } :=
  rfl

theorem NewActionSetQueue_eq (q : Nat) :
    NewActionSetQueue q = { Type_ := 21, Length := 8, QueueId := q } :=
  rfl

theorem NewActionGroup_eq (g : Nat) :
    NewActionGroup g = { Type_ := 22, Length := 8, GroupId := g } :=
  rfl

theorem NewActionDecNwTtl_eq :
    NewActionDecNwTtl = { Type_ := 24, Length := 8, pad := [0, 0, 0, 0] } :=
  rfl

theorem NewActionPushVlan_eq (e : Nat) :
    NewActionPushVlan e = { Type_ := 17, Length := 8, EtherType := e } :=
  rfl

theorem NewActionPushMpls_eq (e : Nat) :
    NewActionPushMpls e = { Type_ := 19, Length := 8, EtherType := e } :=
  rfl

theorem NewActionPopVlan_eq : NewActionPopVlan = { Type_ := 18, Length := 8 } :=
  rfl

theorem NewActionPopMpls_eq (e : Nat) :
    NewActionPopMpls e = { Type_ := 20, Length := 8, EtherType := e } :=
  rfl

theorem NewActionMeter_eq (m : Nat) :
    NewActionMeter m = { Type_ := 29, Length := 8, MeterId := m } :=
  rfl

theorem ActionOutput_MarshalBinary_pad6 (t l p m : Nat) :
    ActionOutput.MarshalBinary
        { Type_ := t, Length := l, Port := p, MaxLen := m, pad := [0, 0, 0, 0, 0, 0] } =
      .ret ([t / 2 ^ 8 % 256, t % 256, l / 2 ^ 8 % 256, l % 256,
        p / 2 ^ 24 % 256, p / 2 ^ 16 % 256, p / 2 ^ 8 % 256, p % 256,
        m / 2 ^ 8 % 256, m % 256, 0, 0, 0, 0, 0, 0], none) := by
  rw [ActionOutput_MarshalBinary_eq]
  rfl

theorem ActionOutput_MarshalBinary_nopad (t l p m : Nat) :
    ActionOutput.MarshalBinary { Type_ := t, Length := l, Port := p, MaxLen := m, pad := [] } =
      .ret ([t / 2 ^ 8 % 256, t % 256, l / 2 ^ 8 % 256, l % 256,
        p / 2 ^ 24 % 256, p / 2 ^ 16 % 256, p / 2 ^ 8 % 256, p % 256,
        m / 2 ^ 8 % 256, m % 256, 0, 0, 0, 0, 0, 0], none) := by
  rw [ActionOutput_MarshalBinary_eq]
  rfl

theorem exists_cons_of_length {n : Nat} (l : List Nat) (h : l.length = n + 1) :
    ∃ x xs, l = x :: xs ∧ xs.length = n := by
  cases l with
  | nil => simp at h
  | cons x xs => exact ⟨x, xs, rfl, by simpa using h⟩

/-- A 16-byte buffer, spelled out. -/
theorem eq_of_length_sixteen (b : List Nat) (h : b.length = 16) :
    ∃ b0 b1 b2 b3 b4 b5 b6 b7 b8 b9 b10 b11 b12 b13 b14 b15,
      b = [b0, b1, b2, b3, b4, b5, b6, b7, b8, b9, b10, b11, b12, b13, b14, b15] := by
  obtain ⟨b0, r0, rfl, h0⟩ := exists_cons_of_length b h
  obtain ⟨b1, r1, rfl, h1⟩ := exists_cons_of_length r0 h0
  obtain ⟨b2, r2, rfl, h2⟩ := exists_cons_of_length r1 h1
  obtain ⟨b3, r3, rfl, h3⟩ := exists_cons_of_length r2 h2
  obtain ⟨b4, r4, rfl, h4⟩ := exists_cons_of_length r3 h3
  obtain ⟨b5, r5, rfl, h5⟩ := exists_cons_of_length r4 h4
  obtain ⟨b6, r6, rfl, h6⟩ := exists_cons_of_length r5 h5
  obtain ⟨b7, r7, rfl, h7⟩ := exists_cons_of_length r6 h6
  obtain ⟨b8, r8, rfl, h8⟩ := exists_cons_of_length r7 h7
  obtain ⟨b9, r9, rfl, h9⟩ := exists_cons_of_length r8 h8
  obtain ⟨b10, r10, rfl, h10⟩ := exists_cons_of_length r9 h9
  obtain ⟨b11, r11, rfl, h11⟩ := exists_cons_of_length r10 h10
  obtain ⟨b12, r12, rfl, h12⟩ := exists_cons_of_length r11 h11
  obtain ⟨b13, r13, rfl, h13⟩ := exists_cons_of_length r12 h12
  obtain ⟨b14, r14, rfl, h14⟩ := exists_cons_of_length r13 h13
  obtain ⟨b15, r15, rfl, h15⟩ := exists_cons_of_length r14 h14
  have hr : r15 = [] := List.length_eq_zero.mp h15
  subst hr
  exact ⟨b0, b1, b2, b3, b4, b5, b6, b7, b8, b9, b10, b11, b12, b13, b14, b15, rfl⟩

/-! ## The output action on the wire -/

/-- C1: for every port number `p`, `NewActionOutput(p)` has `MaxLen = 0xffff` (not zero) and
its `MarshalBinary` returns exactly 16 bytes: `00 00 00 10`, then `p` as a 4-byte big-endian
integer (four bytes that `binary.BigEndian.Uint32` reads back as `p`), then `ff ff`, then six
zero bytes. -/
theorem NewActionOutput_MarshalBinary (p : Nat) (hp : p < 2 ^ 32) :
    (NewActionOutput p).MaxLen = 0xffff ∧ (NewActionOutput p).MaxLen ≠ 0 ∧
    (NewActionOutput p).MarshalBinary =
      .ret ([0x00, 0x00, 0x00, 0x10,
             p / 2 ^ 24 % 256, p / 2 ^ 16 % 256, p / 2 ^ 8 % 256, p % 256,
             0xff, 0xff, 0, 0, 0, 0, 0, 0], none) ∧
    Uint32 [p / 2 ^ 24 % 256, p / 2 ^ 16 % 256, p / 2 ^ 8 % 256, p % 256] = .ret p := by
  refine ⟨rfl, by simp [NewActionOutput_eq], ?_, ?_⟩
  · rw [NewActionOutput_eq, ActionOutput_MarshalBinary_pad6]
    norm_num
  · simp only [Uint32]
    rw [be32_roundtrip p hp]

/-- C1 at port 5: the bytes are `00 00 00 10 00 00 00 05 ff ff 00 00 00 00 00 00`. -/
theorem NewActionOutput_MarshalBinary_port5 :
    (NewActionOutput 5).MaxLen = 0xffff ∧
    (NewActionOutput 5).MarshalBinary =
      .ret ([0x00, 0x00, 0x00, 0x10, 0x00, 0x00, 0x00, 0x05, 0xff, 0xff, 0, 0, 0, 0, 0, 0],
        none) :=
  ⟨(NewActionOutput_MarshalBinary 5 (by norm_num)).1,
    (NewActionOutput_MarshalBinary 5 (by norm_num)).2.2.1⟩

/-- C2: for every queue id `q`, `NewActionSetQueue(q).MarshalBinary` returns exactly the 8
bytes `00 15 00 08` followed by `q` as a 4-byte big-endian integer. -/
theorem NewActionSetQueue_MarshalBinary (q : Nat) (hq : q < 2 ^ 32) :
    (NewActionSetQueue q).MarshalBinary =
      .ret ([0x00, 0x15, 0x00, 0x08,
             q / 2 ^ 24 % 256, q / 2 ^ 16 % 256, q / 2 ^ 8 % 256, q % 256], none) ∧
    Uint32 [q / 2 ^ 24 % 256, q / 2 ^ 16 % 256, q / 2 ^ 8 % 256, q % 256] = .ret q := by
  refine ⟨?_, ?_⟩
  · rw [NewActionSetQueue_eq, ActionSetqueue_MarshalBinary_eq]
    simp
  · simp only [Uint32]
    rw [be32_roundtrip q hq]

/-- C2 at queue 3: the bytes are `00 15 00 08 00 00 00 03`. -/
theorem NewActionSetQueue_MarshalBinary_queue3 :
    (NewActionSetQueue 3).MarshalBinary =
      .ret ([0x00, 0x15, 0x00, 0x08, 0x00, 0x00, 0x00, 0x03], none) :=
  (NewActionSetQueue_MarshalBinary 3 (by norm_num)).1

/-- C3, at TTL 64: `MarshalBinary` of an `ActionMplsTtl` (Type 15, Length 8) and of an
`ActionNwTtl` (Type 23, Length 8) does not return 8 bytes; it panics, writing the TTL at index
4 of the 4-byte slice the header codec made. -/
theorem ActionTtl_MarshalBinary_panics :
    ActionMplsTtl.MarshalBinary { Type_ := 15, Length := 8, MplsTtl := 64 } =
      .panicked .indexOutOfRange ∧
    ActionNwTtl.MarshalBinary { Type_ := 23, Length := 8, NwTtl := 64 } =
      .panicked .indexOutOfRange :=
  ⟨ActionMplsTtl_MarshalBinary_panics _, ActionNwTtl_MarshalBinary_panics _⟩

/-- C4: for every action built by `NewActionOutput`, `NewActionSetQueue`, `NewActionGroup`,
`NewActionDecNwTtl`, `NewActionPushVlan`, `NewActionPushMpls`, `NewActionPopVlan`,
`NewActionPopMpls` or `NewActionMeter`, `MarshalBinary` succeeds and the number of bytes it
returns equals the action's `Len()`, equals the Length field written in bytes 2..3 of the
output, and equals the documented constant (16 for Output, 8 for the others). -/
theorem constructors_MarshalBinary_length (p q g e m : Nat) :
    MarshalsLength (NewActionOutput p).MarshalBinary (NewActionOutput p).Len 16 ∧
    MarshalsLength (NewActionSetQueue q).MarshalBinary (NewActionSetQueue q).Len 8 ∧
    MarshalsLength (NewActionGroup g).MarshalBinary (NewActionGroup g).Len 8 ∧
    MarshalsLength NewActionDecNwTtl.MarshalBinary NewActionDecNwTtl.Len 8 ∧
    MarshalsLength (NewActionPushVlan e).MarshalBinary (NewActionPushVlan e).Len 8 ∧
    MarshalsLength (NewActionPushMpls e).MarshalBinary (NewActionPushMpls e).Len 8 ∧
    MarshalsLength NewActionPopVlan.MarshalBinary NewActionPopVlan.Len 8 ∧
    MarshalsLength (NewActionPopMpls e).MarshalBinary (NewActionPopMpls e).Len 8 ∧
    MarshalsLength (NewActionMeter m).MarshalBinary (NewActionMeter m).Len 8 := by
  refine ⟨?_, ?_, ?_, ?_, ?_, ?_, ?_, ?_, ?_⟩
  · rw [NewActionOutput_eq]
    exact ⟨_, ActionOutput_MarshalBinary_pad6 _ _ _ _, rfl, by norm_num, rfl⟩
  · rw [NewActionSetQueue_eq]
    exact ⟨_, ActionSetqueue_MarshalBinary_eq _, rfl, by simp [copy], rfl⟩
  · rw [NewActionGroup_eq]
    exact ⟨_, ActionGroup_MarshalBinary_eq _, rfl, by simp [copy], rfl⟩
  · rw [NewActionDecNwTtl_eq]
    exact ⟨_, ActionDecNwTtl_MarshalBinary_eq _, rfl, by simp [copy], rfl⟩
  · rw [NewActionPushVlan_eq]
    exact ⟨_, ActionPush_MarshalBinary_eq _, rfl, by simp [copy], rfl⟩
  · rw [NewActionPushMpls_eq]
    exact ⟨_, ActionPush_MarshalBinary_eq _, rfl, by simp [copy], rfl⟩
  · rw [NewActionPopVlan_eq]
    exact ⟨_, ActionPopVlan_MarshalBinary_eq _, rfl, by simp [copy], rfl⟩
  · rw [NewActionPopMpls_eq]
    exact ⟨_, ActionPopMpls_MarshalBinary_eq _, rfl, by simp [copy], rfl⟩
  · rw [NewActionMeter_eq]
    exact ⟨_, ActionMeter_MarshalBinary_eq _, rfl, by simp [copy], rfl⟩

/-! ## Round trips through the dispatcher -/

/-- C5: for every port `p` and every MaxLen `m`, if `x` is `NewActionOutput(p)` with `MaxLen`
set to `m`, then `DecodeAction(x.MarshalBinary())` returns no error and an `ActionOutput` with
the Type, Length, Port and MaxLen of `x` (it is `x` with a nil `pad`). -/
theorem DecodeAction_MarshalBinary_ActionOutput (E : Env) (p m : Nat) (hp : p < 2 ^ 32)
    (hm : m < 2 ^ 16) :
    ∃ bytes y,
      ActionOutput.MarshalBinary { NewActionOutput p with MaxLen := m } = .ret (bytes, none) ∧
      DecodeAction E bytes = .ret (some (.Output y), none) ∧
      y = { NewActionOutput p with MaxLen := m, pad := [] } ∧
      y.Type_ = (NewActionOutput p).Type_ ∧ y.Length = (NewActionOutput p).Length ∧
      y.Port = p ∧ y.MaxLen = m := by
  have hx : ({ NewActionOutput p with MaxLen := m } : ActionOutput) =
      { Type_ := 0, Length := 16, Port := p, MaxLen := m, pad := [0, 0, 0, 0, 0, 0] } := rfl
  have hy : ({ NewActionOutput p with MaxLen := m, pad := [] } : ActionOutput) =
      { Type_ := 0, Length := 16, Port := p, MaxLen := m, pad := [] } := rfl
  refine ⟨[0, 0, 0, 16, p / 2 ^ 24 % 256, p / 2 ^ 16 % 256, p / 2 ^ 8 % 256, p % 256,
      m / 2 ^ 8 % 256, m % 256, 0, 0, 0, 0, 0, 0],
    { Type_ := 0, Length := 16, Port := p, MaxLen := m, pad := [] }, ?_, ?_, hy.symm,
    rfl, rfl, rfl, rfl⟩
  · rw [hx, ActionOutput_MarshalBinary_pad6]
    norm_num
  · rw [DecodeAction_output_cons, be32_roundtrip p hp, be16_roundtrip m hm]
    norm_num

/-- C5 at port 5 with MaxLen `0xffe5`, in the environment `Env.bare`. -/
theorem DecodeAction_MarshalBinary_ActionOutput_port5 :
    ∃ bytes y,
      ActionOutput.MarshalBinary { NewActionOutput 5 with MaxLen := 0xffe5 } =
        .ret (bytes, none) ∧
      DecodeAction Env.bare bytes = .ret (some (.Output y), none) ∧
      y = { NewActionOutput 5 with MaxLen := 0xffe5, pad := [] } ∧
      y.Type_ = (NewActionOutput 5).Type_ ∧ y.Length = (NewActionOutput 5).Length ∧
      y.Port = 5 ∧ y.MaxLen = 0xffe5 :=
  DecodeAction_MarshalBinary_ActionOutput Env.bare 5 0xffe5 (by norm_num) (by norm_num)

/-- C6: for every 16-byte buffer `b` whose type field (bytes 0..1) is 0 and whose padding
bytes 10..15 are zero, `DecodeAction(b)` succeeds and `MarshalBinary` of the decoded action
returns exactly `b`. -/
theorem MarshalBinary_DecodeAction_ActionOutput (E : Env) (b : List Nat)
    (hlen : b.length = 16) (hbytes : isBytes b) (htype : b.take 2 = [0, 0])
    (hpad : b.drop 10 = [0, 0, 0, 0, 0, 0]) :
    ∃ a, DecodeAction E b = .ret (some (.Output a), none) ∧
      a.MarshalBinary = .ret (b, none) := by
  obtain ⟨b0, b1, b2, b3, b4, b5, b6, b7, b8, b9, b10, b11, b12, b13, b14, b15, rfl⟩ :=
    eq_of_length_sixteen b hlen
  simp only [List.take, List.drop, List.cons.injEq, and_true] at htype hpad
  obtain ⟨rfl, rfl⟩ := htype
  obtain ⟨rfl, rfl, rfl, rfl, rfl, rfl⟩ := hpad
  have h2 : b2 < 256 := hbytes b2 (by simp)
  have h3 : b3 < 256 := hbytes b3 (by simp)
  have h4 : b4 < 256 := hbytes b4 (by simp)
  have h5 : b5 < 256 := hbytes b5 (by simp)
  have h6 : b6 < 256 := hbytes b6 (by simp)
  have h7 : b7 < 256 := hbytes b7 (by simp)
  have h8 : b8 < 256 := hbytes b8 (by simp)
  have h9 : b9 < 256 := hbytes b9 (by simp)
  refine ⟨_, DecodeAction_output_cons E _ _ _ _ _ _ _ _ _ _ _ _ _ _ [], ?_⟩
  rw [ActionOutput_MarshalBinary_nopad]
  obtain ⟨e2, e3⟩ := be16_bytes b2 b3 h2 h3
  obtain ⟨e4, e5, e6, e7⟩ := be32_bytes b4 b5 b6 b7 h4 h5 h6 h7
  obtain ⟨e8, e9⟩ := be16_bytes b8 b9 h8 h9
  rw [e2, e3, e4, e5, e6, e7, e8, e9]
  norm_num

/-- C6 at the buffer `00 00 00 10 00 00 00 05 ff ff 00 00 00 00 00 00`. -/
theorem MarshalBinary_DecodeAction_ActionOutput_port5 :
    ∃ a, DecodeAction Env.bare [0, 0, 0, 16, 0, 0, 0, 5, 255, 255, 0, 0, 0, 0, 0, 0] =
        .ret (some (.Output a), none) ∧
      a.MarshalBinary = .ret ([0, 0, 0, 16, 0, 0, 0, 5, 255, 255, 0, 0, 0, 0, 0, 0], none) :=
  MarshalBinary_DecodeAction_ActionOutput Env.bare
    [0, 0, 0, 16, 0, 0, 0, 5, 255, 255, 0, 0, 0, 0, 0, 0] rfl (by decide) rfl rfl

/-- C7: for every EtherType `e`, `DecodeAction` applied to the encoding of
`NewActionPushVlan(e)` returns an `ActionPush` with Type 17, Length 8 and EtherType `e`, and
applied to the encoding of `NewActionPushMpls(e)` returns an `ActionPush` with Type 19,
Length 8 and EtherType `e`: the two results differ in the header Type only. -/
theorem DecodeAction_MarshalBinary_ActionPush (E : Env) (e : Nat) (he : e < 2 ^ 16) :
    (∃ bytes, (NewActionPushVlan e).MarshalBinary = .ret (bytes, none) ∧
      DecodeAction E bytes =
        .ret (some (.Push { Type_ := 17, Length := 8, EtherType := e }), none)) ∧
    (∃ bytes, (NewActionPushMpls e).MarshalBinary = .ret (bytes, none) ∧
      DecodeAction E bytes =
        .ret (some (.Push { Type_ := 19, Length := 8, EtherType := e }), none)) := by
  constructor
  · refine ⟨[0, 17, 0, 8, e / 2 ^ 8 % 256, e % 256, 0, 0], ?_, ?_⟩
    · rw [NewActionPushVlan_eq, ActionPush_MarshalBinary_eq]
      norm_num
    · rw [DecodeAction_pushVlan_cons, be16_roundtrip e he]
      norm_num
  · refine ⟨[0, 19, 0, 8, e / 2 ^ 8 % 256, e % 256, 0, 0], ?_, ?_⟩
    · rw [NewActionPushMpls_eq, ActionPush_MarshalBinary_eq]
      norm_num
    · rw [DecodeAction_pushMpls_cons, be16_roundtrip e he]
      norm_num

/-- C7 at EtherType `0x8100`, in the environment `Env.bare`. -/
theorem DecodeAction_MarshalBinary_ActionPush_8100 :
    (∃ bytes, (NewActionPushVlan 0x8100).MarshalBinary = .ret (bytes, none) ∧
      DecodeAction Env.bare bytes =
        .ret (some (.Push { Type_ := 17, Length := 8, EtherType := 0x8100 }), none)) ∧
    (∃ bytes, (NewActionPushMpls 0x8100).MarshalBinary = .ret (bytes, none) ∧
      DecodeAction Env.bare bytes =
        .ret (some (.Push { Type_ := 19, Length := 8, EtherType := 0x8100 }), none)) :=
  DecodeAction_MarshalBinary_ActionPush Env.bare 0x8100 (by norm_num)

/-! ## The header codec -/

/-- C8: `ActionHeader.MarshalBinary` always returns exactly 4 bytes (Type then Length, both
big-endian); `ActionHeader.UnmarshalBinary` returns an error if and only if the buffer has
fewer than 4 bytes, leaves the header unchanged in that case, and otherwise sets Type and
Length from bytes 0..1 and 2..3, so that decoding the encoding of a header `a` into any
receiver `r` returns `a`. -/
theorem ActionHeader_codec (a : ActionHeader) (hT : a.Type_ < 2 ^ 16)
    (hL : a.Length < 2 ^ 16) (r : ActionHeader) (data : List Nat) :
    (∃ bytes, a.MarshalBinary = .ret (bytes, none) ∧ bytes.length = 4 ∧
      bytes = [a.Type_ / 2 ^ 8 % 256, a.Type_ % 256, a.Length / 2 ^ 8 % 256, a.Length % 256] ∧
      r.UnmarshalBinary bytes = .ret (a, none)) ∧
    (∃ r1 err, r.UnmarshalBinary data = .ret (r1, err) ∧
      (err ≠ none ↔ data.length < 4) ∧
      (data.length < 4 → r1 = r) ∧
      (4 ≤ data.length →
        r1.Type_ = data.getD 0 0 * 2 ^ 8 + data.getD 1 0 ∧
        r1.Length = data.getD 2 0 * 2 ^ 8 + data.getD 3 0)) := by
  constructor
  · refine ⟨_, ActionHeader_MarshalBinary_eq a, rfl, rfl, ?_⟩
    rw [ActionHeader_UnmarshalBinary_cons, be16_roundtrip _ hT, be16_roundtrip _ hL]
  · by_cases h : data.length < 4
    · exact ⟨r, some .headerWrongSize, ActionHeader_UnmarshalBinary_short r data h,
        by simp [h], fun _ => rfl, fun h4 => absurd h (by omega)⟩
    · match data, h with
      | [], h => simp at h
      | [_], h => simp at h
      | [_, _], h => simp at h
      | [_, _, _], h => simp at h
      | b0 :: b1 :: b2 :: b3 :: rest, h =>
        exact ⟨_, none, ActionHeader_UnmarshalBinary_cons r b0 b1 b2 b3 rest, by simp,
          fun h4 => absurd h4 h, fun _ => ⟨rfl, rfl⟩⟩

/-- C8 at the header of a set-queue action, decoded from `00 15 00 08` and from the empty
buffer. -/
theorem ActionHeader_codec_setQueue :
    (∃ bytes, ActionHeader.MarshalBinary { Type_ := 21, Length := 8 } = .ret (bytes, none) ∧
      bytes.length = 4 ∧ bytes = [0, 21, 0, 8] ∧
      ActionHeader.zero.UnmarshalBinary bytes = .ret ({ Type_ := 21, Length := 8 }, none)) ∧
    ActionHeader.UnmarshalBinary { Type_ := 21, Length := 8 } [] =
      .ret ({ Type_ := 21, Length := 8 }, some .headerWrongSize) :=
  ⟨(ActionHeader_codec { Type_ := 21, Length := 8 } (by norm_num) (by norm_num)
      ActionHeader.zero []).1,
    rfl⟩

/-! ## Buffers the decoders mishandle -/

/-- C9, at a set-queue action followed by a sibling group action (16 bytes):
`ActionSetqueue.UnmarshalBinary` does not succeed, it reports a wrong size and leaves the
receiver untouched, because it demands a buffer of exactly 8 bytes; on a buffer of the same
shape `ActionGroup.UnmarshalBinary`, whose layout is identical, succeeds. -/
theorem ActionSetqueue_UnmarshalBinary_rejects_sibling :
    ActionSetqueue.zero.UnmarshalBinary
        [0, 21, 0, 8, 0, 0, 0, 3, 0, 22, 0, 8, 0, 0, 0, 1] =
      .ret (ActionSetqueue.zero, some .enqueueWrongSize) ∧
    ActionSetqueue.zero.UnmarshalBinary [0, 21, 0, 8, 0, 0, 0, 3] =
      .ret ({ Type_ := 21, Length := 8, QueueId := 3 }, none) ∧
    ActionGroup.zero.UnmarshalBinary
        [0, 22, 0, 8, 0, 0, 0, 1, 0, 21, 0, 8, 0, 0, 0, 3] =
      .ret ({ Type_ := 22, Length := 8, GroupId := 1 }, none) := by
  decide

/-- C10, at the empty buffer and at every 1-byte buffer: `DecodeAction` returns no error
value, it panics in the slice expression `data[:2]`. -/
theorem DecodeAction_short_buffer_panics (E : Env) :
    DecodeAction E [] = .panicked .sliceBoundsOutOfRange ∧
    ∀ x : Nat, DecodeAction E [x] = .panicked .sliceBoundsOutOfRange :=
  ⟨rfl, fun _ => rfl⟩

/-- C11, at a buffer that holds only the 4-byte header of the action: no decoder of the seven
returns an error.  Those of `ActionMeter`, `ActionPush`, `ActionPopMpls`, `ActionMplsTtl` and
`ActionNwTtl` panic reading the body past the end of the buffer, those of `ActionPopVlan` and
`ActionDecNwTtl` report success; on a 2-byte buffer the decoders that slice `data[:4]` panic
too. -/
theorem UnmarshalBinary_short_buffer_unchecked :
    ActionMeter.zero.UnmarshalBinary [0, 29, 0, 8] = .panicked .indexOutOfRange ∧
    ActionPush.zero.UnmarshalBinary [0, 17, 0, 8] = .panicked .indexOutOfRange ∧
    ActionPopMpls.zero.UnmarshalBinary [0, 20, 0, 8] = .panicked .indexOutOfRange ∧
    ActionMplsTtl.zero.UnmarshalBinary [0, 15, 0, 8] = .panicked .indexOutOfRange ∧
    ActionNwTtl.zero.UnmarshalBinary [0, 23, 0, 8] = .panicked .indexOutOfRange ∧
    ActionPopVlan.zero.UnmarshalBinary [0, 18, 0, 8] =
      .ret ({ Type_ := 18, Length := 8 }, none) ∧
    ActionDecNwTtl.zero.UnmarshalBinary [0, 24, 0, 8] =
      .ret ({ Type_ := 24, Length := 8, pad := [] }, none) ∧
    ActionPush.zero.UnmarshalBinary [0, 17] = .panicked .sliceBoundsOutOfRange ∧
    ActionPopMpls.zero.UnmarshalBinary [0, 20] = .panicked .sliceBoundsOutOfRange ∧
    ActionPopVlan.zero.UnmarshalBinary [0, 18] = .panicked .sliceBoundsOutOfRange ∧
    ActionDecNwTtl.zero.UnmarshalBinary [0, 24] = .panicked .sliceBoundsOutOfRange := by
  decide

/-! ## Dispatch -/

/-- C12: for every buffer of at least 2 bytes whose leading big-endian 16-bit type code is
neither one of the standard codes nor `0xffff`, `DecodeAction` returns a nil action and the
unknown-type error that reports that type code. -/
theorem DecodeAction_unknown_type (E : Env) (b0 b1 : Nat) (rest : List Nat)
    (hstd : b0 * 2 ^ 8 + b1 ∉
      [0, 11, 12, 15, 16, 17, 18, 19, 20, 21, 22, 23, 24, 25, 26, 27, 28, 29])
    (hexp : b0 * 2 ^ 8 + b1 ≠ 0xffff) :
    DecodeAction E (b0 :: b1 :: rest) =
      .ret (none, some (.unknownType (b0 * 2 ^ 8 + b1))) := by
  simp only [List.mem_cons, List.mem_singleton, List.not_mem_nil, or_false, not_or,
    Nat.reducePow] at hstd hexp
  obtain ⟨h0, h11, h12, h15, h16, h17, h18, h19, h20, h21, h22, h23, h24, h25, h26, h27, h28,
    h29⟩ := hstd
  have h0' : ¬(b0 = 0 ∧ b1 = 0) := fun h => h0 (by rw [h.1, h.2])
  simp [DecodeAction, sliceTo, Uint16, bind, Outcome.bind, pure, ActionType_Output,
    ActionType_CopyTtlOut, ActionType_CopyTtlIn, ActionType_SetMplsTtl, ActionType_DecMplsTtl,
    ActionType_PushVlan, ActionType_PopVlan, ActionType_PushMpls, ActionType_PopMpls,
    ActionType_SetQueue, ActionType_Group, ActionType_SetNwTtl, ActionType_DecNwTtl,
    ActionType_SetField, ActionType_PushPbb, ActionType_PopPbb, ActionType_Copy_Field,
    ActionType_Meter, ActionType_Experimenter, h0', h11, h12, h15, h16, h17, h18, h19, h20,
    h21, h22, h23, h24, h25, h26, h27, h28, h29, hexp]

/-- C12 at the unassigned code `0x00fe`, in the environment `Env.bare`. -/
theorem DecodeAction_unknown_type_00fe :
    DecodeAction Env.bare [0x00, 0xfe, 0x00, 0x08, 0, 0, 0, 0] =
      .ret (none, some (.unknownType 0xfe)) :=
  DecodeAction_unknown_type Env.bare 0x00 0xfe [0x00, 0x08, 0, 0, 0, 0] (by decide)
    (by decide)

/-- C13: for each fixed-size standard type code and every buffer of exactly that variant's
documented size whose first 2 bytes are that code, `DecodeAction` returns no error and an
instance of the matching variant whose header Type is that code, whose Length is bytes 2..3
and whose body fields are the big-endian values at their documented offsets. -/
theorem DecodeAction_fixed_size_variants (E : Env)
    (b2 b3 b4 b5 b6 b7 b8 b9 b10 b11 b12 b13 b14 b15 : Nat) :
    DecodeAction E [0, 0, b2, b3, b4, b5, b6, b7, b8, b9, b10, b11, b12, b13, b14, b15] =
      .ret (some (.Output
        { Type_ := 0, Length := b2 * 2 ^ 8 + b3,
          Port := b4 * 2 ^ 24 + b5 * 2 ^ 16 + b6 * 2 ^ 8 + b7, MaxLen := b8 * 2 ^ 8 + b9,
          pad := [] }), none) ∧
    DecodeAction E [0, 15, b2, b3, b4, b5, b6, b7] =
      .ret (some (.MplsTtl { Type_ := 15, Length := b2 * 2 ^ 8 + b3, MplsTtl := b4 }), none) ∧
    DecodeAction E [0, 17, b2, b3, b4, b5, b6, b7] =
      .ret (some (.Push
        { Type_ := 17, Length := b2 * 2 ^ 8 + b3, EtherType := b4 * 2 ^ 8 + b5 }), none) ∧
    DecodeAction E [0, 18, b2, b3, b4, b5, b6, b7] =
      .ret (some (.PopVlan { Type_ := 18, Length := b2 * 2 ^ 8 + b3 }), none) ∧
    DecodeAction E [0, 19, b2, b3, b4, b5, b6, b7] =
      .ret (some (.Push
        { Type_ := 19, Length := b2 * 2 ^ 8 + b3, EtherType := b4 * 2 ^ 8 + b5 }), none) ∧
    DecodeAction E [0, 20, b2, b3, b4, b5, b6, b7] =
      .ret (some (.PopMpls
        { Type_ := 20, Length := b2 * 2 ^ 8 + b3, EtherType := b4 * 2 ^ 8 + b5 }), none) ∧
    DecodeAction E [0, 21, b2, b3, b4, b5, b6, b7] =
      .ret (some (.Setqueue
        { Type_ := 21, Length := b2 * 2 ^ 8 + b3,
          QueueId := b4 * 2 ^ 24 + b5 * 2 ^ 16 + b6 * 2 ^ 8 + b7 }), none) ∧
    DecodeAction E [0, 22, b2, b3, b4, b5, b6, b7] =
      .ret (some (.Group
        { Type_ := 22, Length := b2 * 2 ^ 8 + b3,
          GroupId := b4 * 2 ^ 24 + b5 * 2 ^ 16 + b6 * 2 ^ 8 + b7 }), none) ∧
    DecodeAction E [0, 23, b2, b3, b4, b5, b6, b7] =
      .ret (some (.NwTtl { Type_ := 23, Length := b2 * 2 ^ 8 + b3, NwTtl := b4 }), none) ∧
    DecodeAction E [0, 24, b2, b3, b4, b5, b6, b7] =
      .ret (some (.DecNwTtl { Type_ := 24, Length := b2 * 2 ^ 8 + b3, pad := [] }), none) ∧
    DecodeAction E [0, 29, b2, b3, b4, b5, b6, b7] =
      .ret (some (.Meter
        { Type_ := 29, Length := b2 * 2 ^ 8 + b3,
          MeterId := b4 * 2 ^ 24 + b5 * 2 ^ 16 + b6 * 2 ^ 8 + b7 }), none) := by
  refine ⟨DecodeAction_output_cons E _ _ _ _ _ _ _ _ _ _ _ _ _ _ [], ?_,
    DecodeAction_pushVlan_cons E _ _ _ _ _, ?_, DecodeAction_pushMpls_cons E _ _ _ _ _,
    ?_, ?_, ?_, ?_, ?_, ?_⟩ <;>
  simp [DecodeAction, sliceTo, sliceFrom, subslice, Uint16, Uint32, index, bind, Outcome.bind,
    pure, ActionType_Output, ActionType_CopyTtlOut, ActionType_CopyTtlIn,
    ActionType_SetMplsTtl, ActionType_DecMplsTtl, ActionType_PushVlan, ActionType_PopVlan,
    ActionType_PushMpls, ActionType_PopMpls, ActionType_SetQueue, ActionType_Group,
    ActionType_SetNwTtl, ActionType_DecNwTtl, ActionType_SetField, ActionType_PushPbb,
    ActionType_PopPbb, ActionType_Copy_Field, ActionType_Meter, DecodeAction.unmarshal,
    Action.UnmarshalBinary, ActionHeader_UnmarshalBinary_cons, ActionHeader.Len,
    ActionMplsTtl.UnmarshalBinary, ActionMplsTtl.zero, ActionPopVlan.UnmarshalBinary,
    ActionPopVlan.zero, ActionPopMpls.UnmarshalBinary, ActionPopMpls.zero,
    ActionSetqueue.UnmarshalBinary, ActionSetqueue.zero, ActionSetqueue.Len,
    ActionGroup.UnmarshalBinary, ActionGroup.zero, ActionGroup.Len,
    ActionNwTtl.UnmarshalBinary, ActionNwTtl.zero, ActionDecNwTtl.UnmarshalBinary,
    ActionDecNwTtl.zero, ActionMeter.UnmarshalBinary, ActionMeter.zero, ActionHeader.zero]

/-- C14 fails at PushPbb: on the 4-byte buffer `00 1a 00 04` `DecodeAction` returns no
header-only action, because type code 26 is dispatched to the `ActionPush` decoder, which reads
an EtherType at bytes 4..5; on the 8-byte buffer `00 1a 00 08 88 e7 00 00` it returns an
`ActionPush`. -/
theorem DecodeAction_pushPbb_not_header_only :
    (¬ ∃ h : ActionHeader,
      DecodeAction Env.bare [0, 26, 0, 4] = .ret (some (.Header h), none)) ∧
    DecodeAction Env.bare [0, 26, 0, 4] = .panicked .indexOutOfRange ∧
    DecodeAction Env.bare [0, 26, 0, 8, 0x88, 0xe7, 0, 0] =
      .ret (some (.Push { Type_ := 26, Length := 8, EtherType := 0x88e7 }), none) := by
  have hp : DecodeAction Env.bare [0, 26, 0, 4] = .panicked .indexOutOfRange := rfl
  refine ⟨?_, hp, rfl⟩
  rintro ⟨h, hh⟩
  rw [hp] at hh
  cases hh

/-- C14, amended: for each of the header-only type codes CopyTtlOut (11), CopyTtlIn (12),
DecMplsTtl (16) and PopPbb (27) and every 4-byte buffer starting with that code,
`DecodeAction` succeeds and returns a header-only action whose Type is that code and whose
Length is bytes 2..3, and re-encoding it returns the same 4 bytes; PushPbb (26) is not
header-only: on every 8-byte buffer starting with that code `DecodeAction` returns an
`ActionPush` with Type 26, Length from bytes 2..3 and EtherType from bytes 4..5. -/
theorem DecodeAction_header_only (E : Env) (b2 b3 : Nat) (h2 : b2 < 256) (h3 : b3 < 256) :
    (∀ c ∈ [11, 12, 16, 27],
      DecodeAction E [0, c, b2, b3] =
        .ret (some (.Header { Type_ := c, Length := b2 * 2 ^ 8 + b3 }), none) ∧
      ActionHeader.MarshalBinary { Type_ := c, Length := b2 * 2 ^ 8 + b3 } =
        .ret ([0, c, b2, b3], none)) ∧
    (∀ b4 b5 b6 b7 : Nat,
      DecodeAction E [0, 26, b2, b3, b4, b5, b6, b7] =
        .ret (some (.Push
          { Type_ := 26, Length := b2 * 2 ^ 8 + b3, EtherType := b4 * 2 ^ 8 + b5 }), none)) := by
  obtain ⟨e2, e3⟩ := be16_bytes b2 b3 h2 h3
  constructor
  · intro c hc
    simp only [List.mem_cons, List.mem_singleton, List.not_mem_nil, or_false] at hc
    rcases hc with rfl | rfl | rfl | rfl <;>
    · refine ⟨?_, ?_⟩
      · simp [DecodeAction, sliceTo, Uint16, bind, Outcome.bind, pure, ActionType_Output,
          ActionType_CopyTtlOut, ActionType_CopyTtlIn, ActionType_SetMplsTtl,
          ActionType_DecMplsTtl, ActionType_PushVlan, ActionType_PopVlan, ActionType_PushMpls,
          ActionType_PopMpls, ActionType_SetQueue, ActionType_Group, ActionType_SetNwTtl,
          ActionType_DecNwTtl, ActionType_SetField, ActionType_PushPbb, ActionType_PopPbb,
          DecodeAction.unmarshal, Action.UnmarshalBinary, ActionHeader_UnmarshalBinary_cons]
      · rw [ActionHeader_MarshalBinary_eq]
        simp only [e2, e3]
        norm_num
  · intro b4 b5 b6 b7
    simp [DecodeAction, sliceTo, Uint16, bind, Outcome.bind, pure, ActionType_Output,
      ActionType_CopyTtlOut, ActionType_CopyTtlIn, ActionType_SetMplsTtl,
      ActionType_DecMplsTtl, ActionType_PushVlan, ActionType_PopVlan, ActionType_PushMpls,
      ActionType_PopMpls, ActionType_SetQueue, ActionType_Group, ActionType_SetNwTtl,
      ActionType_DecNwTtl, ActionType_SetField, ActionType_PushPbb, DecodeAction.unmarshal,
      Action.UnmarshalBinary, ActionPush_UnmarshalBinary_cons]

/-- C14, amended, at the buffers `00 0b 00 04` and `00 1a 00 04 88 e7 00 00`, in the
environment `Env.bare`. -/
theorem DecodeAction_header_only_copyTtlOut :
    (DecodeAction Env.bare [0, 11, 0, 4] =
        .ret (some (.Header { Type_ := 11, Length := 4 }), none) ∧
      ActionHeader.MarshalBinary { Type_ := 11, Length := 4 } = .ret ([0, 11, 0, 4], none)) ∧
    DecodeAction Env.bare [0, 26, 0, 4, 0x88, 0xe7, 0, 0] =
      .ret (some (.Push { Type_ := 26, Length := 4, EtherType := 0x88e7 }), none) :=
  ⟨(DecodeAction_header_only Env.bare 0 4 (by decide) (by decide)).1 11 (by decide),
    (DecodeAction_header_only Env.bare 0 4 (by decide) (by decide)).2 0x88 0xe7 0 0⟩

/-- C15: for every buffer whose type code is the experimenter sentinel `0xffff` (with the
10-byte vendor prefix as `NxActionHeaderLength`): if the buffer has at least 2 but fewer than
10 bytes, `DecodeAction` returns an error; and if it has at least 10 bytes but the 32-bit
vendor ID at bytes 4..7 is not the recognized vendor ID, `DecodeAction` returns a nil action
and an error, whatever the vendor decoders of the environment would do. -/
theorem DecodeAction_experimenter_rejected (E : Env) (hN : E.NxActionHeaderLength = 10) :
    (∀ rest : List Nat, rest.length < 8 →
      DecodeAction E (0xff :: 0xff :: rest) = .ret (none, some .experimenterTooShort)) ∧
    (∀ (b2 b3 b4 b5 b6 b7 b8 b9 : Nat) (rest : List Nat),
      b4 * 2 ^ 24 + b5 * 2 ^ 16 + b6 * 2 ^ 8 + b7 ≠ E.NxExperimenterID →
      DecodeAction E (0xff :: 0xff :: b2 :: b3 :: b4 :: b5 :: b6 :: b7 :: b8 :: b9 :: rest) =
        .ret (none, some (.unknownType 0xffff))) := by
  constructor
  · intro rest hrest
    have hlen : rest.length + 1 + 1 < 10 := by omega
    simp [DecodeAction, sliceTo, Uint16, bind, Outcome.bind, pure, ActionType_Output,
      ActionType_CopyTtlOut, ActionType_CopyTtlIn, ActionType_SetMplsTtl,
      ActionType_DecMplsTtl, ActionType_PushVlan, ActionType_PopVlan, ActionType_PushMpls,
      ActionType_PopMpls, ActionType_SetQueue, ActionType_Group, ActionType_SetNwTtl,
      ActionType_DecNwTtl, ActionType_SetField, ActionType_PushPbb, ActionType_PopPbb,
      ActionType_Copy_Field, ActionType_Meter, ActionType_Experimenter,
      DecodeAction.experimenter, hN, hlen]
  · intro b2 b3 b4 b5 b6 b7 b8 b9 rest hv
    simp only [Nat.reducePow] at hv
    simp [DecodeAction, sliceTo, subslice, Uint16, Uint32, bind, Outcome.bind, pure,
      ActionType_Output, ActionType_CopyTtlOut, ActionType_CopyTtlIn, ActionType_SetMplsTtl,
      ActionType_DecMplsTtl, ActionType_PushVlan, ActionType_PopVlan, ActionType_PushMpls,
      ActionType_PopMpls, ActionType_SetQueue, ActionType_Group, ActionType_SetNwTtl,
      ActionType_DecNwTtl, ActionType_SetField, ActionType_PushPbb, ActionType_PopPbb,
      ActionType_Copy_Field, ActionType_Meter, ActionType_Experimenter,
      DecodeAction.experimenter, DecodeAction.unmarshal, hN, hv]

/-- C15 at a 4-byte experimenter buffer and at a 16-byte one with vendor ID 1, in the
environment `Env.bare`. -/
theorem DecodeAction_experimenter_rejected_vendor1 :
    DecodeAction Env.bare [0xff, 0xff, 0, 16] = .ret (none, some .experimenterTooShort) ∧
    DecodeAction Env.bare [0xff, 0xff, 0, 16, 0, 0, 0, 1, 0, 27, 0, 0, 0, 0, 0, 0] =
      .ret (none, some (.unknownType 0xffff)) :=
  ⟨(DecodeAction_experimenter_rejected Env.bare rfl).1 [0, 16] (by decide),
    (DecodeAction_experimenter_rejected Env.bare rfl).2 0 16 0 0 0 1 0 27 [0, 0, 0, 0, 0, 0]
      (by decide)⟩

/-! ## Vendor actions -/

/-- C16: `NXActionEncap.UnmarshalBinary` returns the not-implemented error for every input
buffer and every receiver, among them the actions built by `NewNXActionEncap` and
`NewNXActionDecap`, and the receiver is the same after the call. -/
theorem NXActionEncap_UnmarshalBinary_not_implemented (a : NXActionEncap) (data : List Nat)
    (E : Env) (pktType : Nat) :
    a.UnmarshalBinary data = .ret (a, some .encapNotImplemented) ∧
    (NewNXActionEncap E pktType).UnmarshalBinary data =
      .ret (NewNXActionEncap E pktType, some .encapNotImplemented) ∧
    (NewNXActionDecap E pktType).UnmarshalBinary data =
      .ret (NewNXActionDecap E pktType, some .encapNotImplemented) :=
  ⟨rfl, rfl, rfl⟩

/-- C18, at buffers shorter than 24 bytes whose header declares their own size:
`NXActionStack.UnmarshalBinary` returns no error, it panics.  Its length check compares the
buffer with the Length the buffer declares, so a 10-byte buffer declaring 10 passes it and the
read of `OfsNbits` at bytes 10..11 is out of range; a 12-byte buffer declaring 12 panics in
the slice `data[12:16]`, a 16-byte buffer declaring 16 in the read of `Nbits`. -/
theorem NXActionStack_UnmarshalBinary_short_buffer_panics :
    (NXActionStack.new Env.wire).UnmarshalBinary
        [0xff, 0xff, 0, 10, 0, 0, 0x23, 0x20, 0, 27] = .panicked .indexOutOfRange ∧
    (NXActionStack.new Env.wire).UnmarshalBinary
        [0xff, 0xff, 0, 12, 0, 0, 0x23, 0x20, 0, 27, 0, 0] =
      .panicked .sliceBoundsOutOfRange ∧
    (NXActionStack.new Env.wire).UnmarshalBinary
        [0xff, 0xff, 0, 16, 0, 0, 0x23, 0x20, 0, 27, 0, 0, 0, 0, 2, 4] =
      .panicked .indexOutOfRange :=
  ⟨rfl, rfl, rfl⟩

/-- C20, at two experimenter-class OXM ids (8 bytes each): the action built by
`NewActionCopyField` has header Length 24, the size computed while both ids were still
zero-valued, but its `MarshalBinary` produces 32 bytes, the smallest multiple of 8 that is
`>= 12 + 8 + 8`; bytes 2..3 of the output say 24. -/
theorem NewActionCopyField_Length_stale :
    ∃ a, NewActionCopyField Env.wire 16 0 0 experimenterOxmId experimenterOxmId = .ret a ∧
      a.Length = 24 ∧ a.Len = .ret 32 ∧
      a.MarshalBinary =
        .ret ([0, 28, 0, 24, 0, 16, 0, 0, 0, 0, 0, 0,
               0xff, 0xff, 6, 4, 0, 0, 0x23, 0x20, 0xff, 0xff, 6, 4, 0, 0, 0x23, 0x20,
               0, 0, 0, 0], none) :=
  ⟨_, rfl, rfl, rfl, rfl⟩

/-! ## The stack actions on the wire -/

theorem NXActionHeader_MarshalBinary_eq (a : NXActionHeader) :
    a.MarshalBinary =
      .ret ([a.Type_ / 2 ^ 8 % 256, a.Type_ % 256, a.Length / 2 ^ 8 % 256, a.Length % 256,
        a.Vendor / 2 ^ 24 % 256, a.Vendor / 2 ^ 16 % 256, a.Vendor / 2 ^ 8 % 256,
        a.Vendor % 256, a.Subtype / 2 ^ 8 % 256, a.Subtype % 256], none) := by
  simp only [NXActionHeader.MarshalBinary, ActionHeader_MarshalBinary_eq]
  rfl

theorem NXActionStack_MarshalBinary_eq (E : Env) (t v s o n x : Nat) (f : E.MatchField)
    (hx : E.MatchField_MarshalHeader f = .ret x) :
    NXActionStack.MarshalBinary
        ({ NXActionHeader := some { Type_ := t, Length := 24, Vendor := v, Subtype := s },
           OfsNbits := o, SrcField := some f, Nbits := n, zero := [0, 0, 0, 0, 0, 0] } :
          NXActionStack E) =
      .ret ([t / 2 ^ 8 % 256, t % 256, 0, 24,
        v / 2 ^ 24 % 256, v / 2 ^ 16 % 256, v / 2 ^ 8 % 256, v % 256,
        s / 2 ^ 8 % 256, s % 256, o / 2 ^ 8 % 256, o % 256,
        x / 2 ^ 24 % 256, x / 2 ^ 16 % 256, x / 2 ^ 8 % 256, x % 256,
        n / 2 ^ 8 % 256, n % 256, 0, 0, 0, 0, 0, 0], none) := by
  simp [NXActionStack.MarshalBinary, NXActionStack.Len, NXActionHeader_MarshalBinary_eq, hx,
    bind, Outcome.bind, pure, copyAt, sliceFrom, PutUint16At, PutUint32At, PutUint16,
    PutUint32, copy, make, List.replicate]

/-- C17: for every source field `f` (whose 4-byte OXM header is the value `x` that
`MarshalHeader` returns) and bit count `n`, `MarshalBinary` of `NewNXActionStackPush(f, n)` and
of `NewNXActionStackPop(f, n)`, with any value `o` stored in `OfsNbits` (the constructors
leave 0), returns exactly 24 bytes: the 10-byte vendor prefix with Type `0xffff` and Length
24, then `OfsNbits` big-endian at bytes 10..11, then the OXM header of `f` at bytes 12..15,
then `n` big-endian at bytes 16..17, then six zero bytes. -/
theorem NewNXActionStack_MarshalBinary (E : Env) (f : E.MatchField) (n o x : Nat)
    (hx : E.MatchField_MarshalHeader f = .ret x) :
    NXActionStack.MarshalBinary { NewNXActionStackPush E (some f) n with OfsNbits := o } =
      .ret ([0xff, 0xff, 0, 24,
        E.NxExperimenterID / 2 ^ 24 % 256, E.NxExperimenterID / 2 ^ 16 % 256,
        E.NxExperimenterID / 2 ^ 8 % 256, E.NxExperimenterID % 256,
        E.NXAST_STACK_PUSH / 2 ^ 8 % 256, E.NXAST_STACK_PUSH % 256,
        o / 2 ^ 8 % 256, o % 256,
        x / 2 ^ 24 % 256, x / 2 ^ 16 % 256, x / 2 ^ 8 % 256, x % 256,
        n / 2 ^ 8 % 256, n % 256, 0, 0, 0, 0, 0, 0], none) ∧
    NXActionStack.MarshalBinary { NewNXActionStackPop E (some f) n with OfsNbits := o } =
      .ret ([0xff, 0xff, 0, 24,
        E.NxExperimenterID / 2 ^ 24 % 256, E.NxExperimenterID / 2 ^ 16 % 256,
        E.NxExperimenterID / 2 ^ 8 % 256, E.NxExperimenterID % 256,
        E.NXAST_STACK_POP / 2 ^ 8 % 256, E.NXAST_STACK_POP % 256,
        o / 2 ^ 8 % 256, o % 256,
        x / 2 ^ 24 % 256, x / 2 ^ 16 % 256, x / 2 ^ 8 % 256, x % 256,
        n / 2 ^ 8 % 256, n % 256, 0, 0, 0, 0, 0, 0], none) ∧
    (NewNXActionStackPush E (some f) n).OfsNbits = 0 ∧
    (NewNXActionStackPop E (some f) n).OfsNbits = 0 := by
  have hpush : ({ NewNXActionStackPush E (some f) n with OfsNbits := o } : NXActionStack E) =
      { NXActionHeader :=
          some { Type_ := 0xffff, Length := 24, Vendor := E.NxExperimenterID,
                 Subtype := E.NXAST_STACK_PUSH },
        OfsNbits := o, SrcField := some f, Nbits := n, zero := [0, 0, 0, 0, 0, 0] } := rfl
  have hpop : ({ NewNXActionStackPop E (some f) n with OfsNbits := o } : NXActionStack E) =
      { NXActionHeader :=
          some { Type_ := 0xffff, Length := 24, Vendor := E.NxExperimenterID,
                 Subtype := E.NXAST_STACK_POP },
        OfsNbits := o, SrcField := some f, Nbits := n, zero := [0, 0, 0, 0, 0, 0] } := rfl
  refine ⟨?_, ?_, rfl, rfl⟩
  · rw [hpush, NXActionStack_MarshalBinary_eq E _ _ _ _ _ x f hx]
    norm_num
  · rw [hpop, NXActionStack_MarshalBinary_eq E _ _ _ _ _ x f hx]
    norm_num

/-- C17 at the in-port field, 16 bits and offset 3, in the environment `Env.wire`. -/
theorem NewNXActionStack_MarshalBinary_inport5 :
    NXActionStack.MarshalBinary
        { NewNXActionStackPush Env.wire (some inportField5) 16 with OfsNbits := 3 } =
      .ret ([0xff, 0xff, 0, 24, 0, 0, 0x23, 0x20, 0, 27, 0, 3, 0, 0, 0, 2, 0, 16,
        0, 0, 0, 0, 0, 0], none) ∧
    NXActionStack.MarshalBinary
        { NewNXActionStackPop Env.wire (some inportField5) 16 with OfsNbits := 3 } =
      .ret ([0xff, 0xff, 0, 24, 0, 0, 0x23, 0x20, 0, 28, 0, 3, 0, 0, 0, 2, 0, 16,
        0, 0, 0, 0, 0, 0], none) :=
  ⟨(NewNXActionStack_MarshalBinary Env.wire inportField5 16 3 2 rfl).1,
    (NewNXActionStack_MarshalBinary Env.wire inportField5 16 3 2 rfl).2.1⟩

/-! ## The length of a set-field action -/

theorem copy_make_of_le (src : List Nat) (n : Nat) (h : src.length ≤ n) :
    copy (make n) src = src ++ make (n - src.length) := by
  simp [copy, make, List.take_of_length_le h]

theorem copyAt_header_make (hdr src : List Nat) (m : Nat) (h : src.length ≤ m) :
    copyAt (hdr ++ make m) hdr.length src = .ret (hdr ++ (src ++ make (m - src.length))) := by
  simp [copyAt, sliceFrom, bind, Outcome.bind, pure, copy_make_of_le src m h]

/-- Below the wrap-around of `uint16`, the rounding of `Len()` is the rounding of natural
numbers. -/
theorem roundUp8_uint16 (L : Nat) (hL : L ≤ 65524) :
    ((4 + L) % 2 ^ 16 + 7) % 2 ^ 16 / 8 * 8 % 2 ^ 16 = (4 + L + 7) / 8 * 8 := by
  omega

theorem ActionSetField_Len_eq (E : Env) (a : ActionSetField E) (L : Nat)
    (hLen : E.MatchField_Len a.Field = .ret L) (hL : L ≤ 65524) :
    a.Len = .ret ((4 + L + 7) / 8 * 8) := by
  simp only [ActionSetField.Len, hLen, ActionHeader.Len, bind, Outcome.bind, pure]
  rw [roundUp8_uint16 L hL]

theorem ActionSetField_MarshalBinary_eq (E : Env) (a : ActionSetField E) (L : Nat)
    (b : List Nat) (hLen : E.MatchField_Len a.Field = .ret L)
    (hMar : E.MatchField_MarshalBinary a.Field = .ret (b, none)) (hb : b.length = L)
    (hL : L ≤ 65524) :
    a.MarshalBinary =
      .ret ([a.Type_ / 2 ^ 8 % 256, a.Type_ % 256, a.Length / 2 ^ 8 % 256, a.Length % 256] ++
        (b ++ make ((4 + L + 7) / 8 * 8 - 4 - L)), none) := by
  have hmk : make ((4 + L + 7) / 8 * 8) = make 4 ++ make ((4 + L + 7) / 8 * 8 - 4) := by
    have e : (4 + L + 7) / 8 * 8 = 4 + ((4 + L + 7) / 8 * 8 - 4) := by omega
    unfold make
    conv_lhs => rw [e]
    exact (List.append_replicate_replicate).symm
  have hble : b.length ≤ (4 + L + 7) / 8 * 8 - 4 := by omega
  simp only [ActionSetField.MarshalBinary, ActionSetField_Len_eq E a L hLen hL,
    ActionHeader_MarshalBinary_eq, hMar, bind, Outcome.bind, pure, ActionHeader.Len]
  rw [hmk]
  have hc : copy (make 4 ++ make ((4 + L + 7) / 8 * 8 - 4))
      [a.Type_ / 2 ^ 8 % 256, a.Type_ % 256, a.Length / 2 ^ 8 % 256, a.Length % 256] =
      [a.Type_ / 2 ^ 8 % 256, a.Type_ % 256, a.Length / 2 ^ 8 % 256, a.Length % 256] ++
        make ((4 + L + 7) / 8 * 8 - 4) := by
    simp [copy, make]
  rw [hc]
  have := copyAt_header_make
    [a.Type_ / 2 ^ 8 % 256, a.Type_ % 256, a.Length / 2 ^ 8 % 256, a.Length % 256] b
    ((4 + L + 7) / 8 * 8 - 4) hble
  simp only [List.length_cons, List.length_nil] at this
  simp only [Nat.zero_add]
  rw [this, hb]

/-- C19: for every SetField action whose embedded field TLV has encoded length `L` with
`L <= 65524`, `ActionSetField.Len()` is the smallest multiple of 8 that is `>= 4 + L` (a
multiple of 8, `>= 4 + L` and `< 4 + L + 8`), `MarshalBinary` returns exactly `Len()` bytes,
and the bytes after the header and the field TLV are zero. -/
theorem ActionSetField_Len_MarshalBinary (E : Env) (a : ActionSetField E) (L : Nat)
    (b : List Nat) (hLen : E.MatchField_Len a.Field = .ret L)
    (hMar : E.MatchField_MarshalBinary a.Field = .ret (b, none)) (hb : b.length = L)
    (hL : L ≤ 65524) :
    ∃ n bytes, a.Len = .ret n ∧
      n % 8 = 0 ∧ 4 + L ≤ n ∧ n < 4 + L + 8 ∧ (∀ m, m % 8 = 0 → 4 + L ≤ m → n ≤ m) ∧
      a.MarshalBinary = .ret (bytes, none) ∧ bytes.length = n ∧
      bytes =
        [a.Type_ / 2 ^ 8 % 256, a.Type_ % 256, a.Length / 2 ^ 8 % 256, a.Length % 256] ++
          (b ++ List.replicate (n - (4 + L)) 0) := by
  refine ⟨(4 + L + 7) / 8 * 8, _, ActionSetField_Len_eq E a L hLen hL, by omega, by omega,
    by omega, fun m hm hle => by omega,
    ActionSetField_MarshalBinary_eq E a L b hLen hMar hb hL, ?_, ?_⟩
  · simp only [List.length_append, List.length_cons, List.length_nil, make,
      List.length_replicate, hb]
    omega
  · simp only [make]
    congr 3
    omega

/-- C19 at the set-field action that carries the in-port field (a 6-byte TLV), in the
environment `Env.wire`: `Len()` is 16 and the 6 bytes after the TLV are zero. -/
theorem ActionSetField_Len_MarshalBinary_inport5 :
    ∃ n bytes, setFieldInport5.Len = .ret n ∧
      n % 8 = 0 ∧ 4 + 6 ≤ n ∧ n < 4 + 6 + 8 ∧ (∀ m, m % 8 = 0 → 4 + 6 ≤ m → n ≤ m) ∧
      setFieldInport5.MarshalBinary = .ret (bytes, none) ∧ bytes.length = n ∧
      bytes = [0, 25, 0, 16] ++ ([0, 0, 0, 2, 0, 5] ++ List.replicate (n - (4 + 6)) 0) :=
  ActionSetField_Len_MarshalBinary Env.wire setFieldInport5 6 [0, 0, 0, 2, 0, 5] rfl rfl rfl
    (by norm_num)

/-! ## OXM field constructors -/

/-- C21: for every in-port `p`, `NewNxmInportField(p)` is an unmasked `MatchField` whose
Length is 2 and whose Value encodes to exactly 2 bytes (`p` big-endian); for every ttl `t`,
`NewMplsTtlField(t)` is an unmasked `MatchField` whose Length is 1 and whose Value encodes to
exactly the 1 byte `t`; in both cases Length equals the byte count of `Value.MarshalBinary`
and decoding those bytes returns the same value. -/
theorem NewField_Length_eq_Value_size (E : Env) (p t : Nat) (hp : p < 2 ^ 16)
    (ht : t < 2 ^ 8) :
    ((NewNxmInportField E p).HasMask = false ∧ (NewNxmInportField E p).Mask = none ∧
      (NewNxmInportField E p).Length = 2 ∧
      (NewNxmInportField E p).Value = some (.NxmInport { InPort := p }) ∧
      FieldValue.MarshalBinary (.NxmInport { InPort := p }) =
        .ret ([p / 2 ^ 8 % 256, p % 256], none) ∧
      [p / 2 ^ 8 % 256, p % 256].length = (NewNxmInportField E p).Length ∧
      NxmInportField.UnmarshalBinary { InPort := 0 } [p / 2 ^ 8 % 256, p % 256] =
        .ret ({ InPort := p }, none)) ∧
    ((NewMplsTtlField E t).HasMask = false ∧ (NewMplsTtlField E t).Mask = none ∧
      (NewMplsTtlField E t).Length = 1 ∧
      (NewMplsTtlField E t).Value = some (.MplsTtl { Ttl := t }) ∧
      FieldValue.MarshalBinary (.MplsTtl { Ttl := t }) = .ret ([t], none) ∧
      [t].length = (NewMplsTtlField E t).Length ∧
      MplsTtlField.UnmarshalBinary { Ttl := 0 } [t] = .ret ({ Ttl := t }, none)) := by
  have _ := ht
  refine ⟨⟨rfl, rfl, rfl, rfl, rfl, rfl, ?_⟩, ⟨rfl, rfl, rfl, rfl, rfl, rfl, rfl⟩⟩
  simp only [NxmInportField.UnmarshalBinary, Uint16, bind, Outcome.bind, pure]
  rw [be16_roundtrip p hp]

/-- C21 at in-port 5 and ttl 64, in the environment `Env.wire`. -/
theorem NewField_Length_eq_Value_size_5_64 :
    ((NewNxmInportField Env.wire 5).Length = 2 ∧
      FieldValue.MarshalBinary (.NxmInport { InPort := 5 }) = .ret ([0, 5], none) ∧
      NxmInportField.UnmarshalBinary { InPort := 0 } [0, 5] = .ret ({ InPort := 5 }, none)) ∧
    ((NewMplsTtlField Env.wire 64).Length = 1 ∧
      FieldValue.MarshalBinary (.MplsTtl { Ttl := 64 }) = .ret ([64], none) ∧
      MplsTtlField.UnmarshalBinary { Ttl := 0 } [64] = .ret ({ Ttl := 64 }, none)) :=
  have h := NewField_Length_eq_Value_size Env.wire 5 64 (by norm_num) (by norm_num)
  ⟨⟨h.1.2.2.1, h.1.2.2.2.2.1, h.1.2.2.2.2.2.2⟩, ⟨h.2.2.2.1, h.2.2.2.2.2.1, h.2.2.2.2.2.2.2⟩⟩

/-! ## The padding of the output action -/

/-- C22, at an action built by `NewActionOutput(5)` that then decodes a 16-byte buffer whose
padding bytes are `01 02 03 04 05 06`: `UnmarshalBinary` copies those bytes into `pad` and
`MarshalBinary` writes them back, so bytes 10..15 of the output are not zero.  On a
zero-valued receiver, whose `pad` is nil, the same buffer leaves the padding zero. -/
theorem ActionOutput_MarshalBinary_pad_not_zero :
    (∃ a, (NewActionOutput 5).UnmarshalBinary
          [0, 0, 0, 16, 0, 0, 0, 5, 0xff, 0xff, 1, 2, 3, 4, 5, 6] = .ret (a, none) ∧
      a.pad = [1, 2, 3, 4, 5, 6] ∧
      a.MarshalBinary =
        .ret ([0, 0, 0, 16, 0, 0, 0, 5, 0xff, 0xff, 1, 2, 3, 4, 5, 6], none)) ∧
    (∃ a, ActionOutput.zero.UnmarshalBinary
          [0, 0, 0, 16, 0, 0, 0, 5, 0xff, 0xff, 1, 2, 3, 4, 5, 6] = .ret (a, none) ∧
      a.pad = [] ∧
      a.MarshalBinary =
        .ret ([0, 0, 0, 16, 0, 0, 0, 5, 0xff, 0xff, 0, 0, 0, 0, 0, 0], none)) :=
  ⟨⟨{ Type_ := 0, Length := 16, Port := 5, MaxLen := 0xffff, pad := [1, 2, 3, 4, 5, 6] },
      by decide, rfl, by decide⟩,
    ⟨{ Type_ := 0, Length := 16, Port := 5, MaxLen := 0xffff, pad := [] },
      by decide, rfl, by decide⟩⟩

/-! ## The length guards of the output and group decoders -/

theorem exists_cons_of_succ_le {n : Nat} (l : List Nat) (h : n + 1 ≤ l.length) :
    ∃ x xs, l = x :: xs ∧ n ≤ xs.length := by
  cases l with
  | nil => simp at h
  | cons x xs => exact ⟨x, xs, rfl, by simpa using h⟩

theorem exists_prefix_eight (l : List Nat) (h : 8 ≤ l.length) :
    ∃ b0 b1 b2 b3 b4 b5 b6 b7 rest, l = b0 :: b1 :: b2 :: b3 :: b4 :: b5 :: b6 :: b7 :: rest := by
  obtain ⟨b0, r0, rfl, h0⟩ := exists_cons_of_succ_le l h
  obtain ⟨b1, r1, rfl, h1⟩ := exists_cons_of_succ_le r0 h0
  obtain ⟨b2, r2, rfl, h2⟩ := exists_cons_of_succ_le r1 h1
  obtain ⟨b3, r3, rfl, h3⟩ := exists_cons_of_succ_le r2 h2
  obtain ⟨b4, r4, rfl, h4⟩ := exists_cons_of_succ_le r3 h3
  obtain ⟨b5, r5, rfl, h5⟩ := exists_cons_of_succ_le r4 h4
  obtain ⟨b6, r6, rfl, h6⟩ := exists_cons_of_succ_le r5 h5
  obtain ⟨b7, r7, rfl, _⟩ := exists_cons_of_succ_le r6 h6
  exact ⟨b0, b1, b2, b3, b4, b5, b6, b7, r7, rfl⟩

theorem ActionOutput_UnmarshalBinary_short (a : ActionOutput) (data : List Nat)
    (h : data.length < 16) : a.UnmarshalBinary data = .ret (a, some .outputWrongSize) := by
  simp [ActionOutput.UnmarshalBinary, ActionOutput.Len, ActionHeader.Len, h, pure]

theorem ActionGroup_UnmarshalBinary_short (a : ActionGroup) (data : List Nat)
    (h : data.length < 8) : a.UnmarshalBinary data = .ret (a, some .outputWrongSize) := by
  simp [ActionGroup.UnmarshalBinary, ActionGroup.Len, ActionHeader.Len, h, pure]

theorem ActionGroup_UnmarshalBinary_cons (a : ActionGroup) (b0 b1 b2 b3 b4 b5 b6 b7 : Nat)
    (rest : List Nat) :
    a.UnmarshalBinary (b0 :: b1 :: b2 :: b3 :: b4 :: b5 :: b6 :: b7 :: rest) =
      .ret ({ Type_ := b0 * 2 ^ 8 + b1, Length := b2 * 2 ^ 8 + b3,
              GroupId := b4 * 2 ^ 24 + b5 * 2 ^ 16 + b6 * 2 ^ 8 + b7 }, none) := by
  simp [ActionGroup.UnmarshalBinary, ActionGroup.Len, ActionHeader.Len, sliceFrom,
    ActionHeader_UnmarshalBinary_cons, Uint32, bind, Outcome.bind, pure]

/-- C23: `ActionOutput.UnmarshalBinary` on a buffer shorter than 16 bytes and
`ActionGroup.UnmarshalBinary` on a buffer shorter than 8 bytes return an error and leave every
field of the receiver exactly as it was before the call; on any longer buffer they
succeed. -/
theorem UnmarshalBinary_length_guard (a : ActionOutput) (g : ActionGroup) (data : List Nat) :
    (data.length < 16 → a.UnmarshalBinary data = .ret (a, some .outputWrongSize)) ∧
    (16 ≤ data.length → ∃ a1, a.UnmarshalBinary data = .ret (a1, none)) ∧
    (data.length < 8 → g.UnmarshalBinary data = .ret (g, some .outputWrongSize)) ∧
    (8 ≤ data.length → ∃ g1, g.UnmarshalBinary data = .ret (g1, none)) := by
  refine ⟨ActionOutput_UnmarshalBinary_short a data, ?_,
    ActionGroup_UnmarshalBinary_short g data, ?_⟩
  · intro h
    obtain ⟨b0, b1, b2, b3, b4, b5, b6, b7, r, rfl⟩ := exists_prefix_eight data (by omega)
    have hr : 8 ≤ r.length := by simpa using h
    obtain ⟨b8, b9, b10, b11, b12, b13, b14, b15, rest, rfl⟩ := exists_prefix_eight r hr
    exact ⟨_, ActionOutput_UnmarshalBinary_cons a _ _ _ _ _ _ _ _ _ _ _ _ _ _ _ _ rest⟩
  · intro h
    obtain ⟨b0, b1, b2, b3, b4, b5, b6, b7, rest, rfl⟩ := exists_prefix_eight data h
    exact ⟨_, ActionGroup_UnmarshalBinary_cons g _ _ _ _ _ _ _ _ rest⟩

/-- C23 at the 8-byte buffer `00 16 00 08 00 00 00 01`: it is too short for the output
decoder, which leaves `NewActionOutput(5)` as it was, and long enough for the group
decoder. -/
theorem UnmarshalBinary_length_guard_group1 :
    (NewActionOutput 5).UnmarshalBinary [0, 22, 0, 8, 0, 0, 0, 1] =
      .ret (NewActionOutput 5, some .outputWrongSize) ∧
    ∃ g1, (NewActionGroup 7).UnmarshalBinary [0, 22, 0, 8, 0, 0, 0, 1] = .ret (g1, none) :=
  ⟨(UnmarshalBinary_length_guard (NewActionOutput 5) (NewActionGroup 7)
      [0, 22, 0, 8, 0, 0, 0, 1]).1 (by decide),
    (UnmarshalBinary_length_guard (NewActionOutput 5) (NewActionGroup 7)
      [0, 22, 0, 8, 0, 0, 0, 1]).2.2.2 (by decide)⟩

end openflow15
